import Mathlib

/-!
# gosynq: job store, worker and dispatcher

A shallow embedding of the job pipeline of `arthures11/gosynq`:

* `internal/models/job.go`      : `Job`, `JobAttempt`, `JobEvent`, `IsRetryable`, `ShouldRetry`
* `internal/repository/postgres.go` : the SQL statements, run on an in-memory image of the
  tables `jobs` and `job_attempts`
* `internal/worker/worker.go`   : `pickAndProcessJob`, `processJob`, `handleJobFailure`,
  `calculateRetryDelay`
* `internal/dispatcher/dispatcher.go` : `EnqueueJob`, `processEvents`, `startWorker`, `Start`,
  `Shutdown`
* `internal/websocket/websocket.go` : `broadcastEvent`, `HandleWebSocket`, `removeClient`,
  `Shutdown`, `processEvents`, `writePump`
* `cmd/server/main.go`          : the admin retry and cancel handlers

Conventions.

* Instants (`time.Time`) are integers (nanoseconds); `time.Duration` is an `int64` count of
  nanoseconds, modelled as an `Int` that is wrapped to 64 bits after every multiplication.
* Go strings are `String`; `JobStatus` and `JobPriority` are string types in Go and stay
  strings here.  `json.RawMessage` is kept as the string of its bytes.
* `error` values are `Option String` (`none` is `nil`), `fmt.Errorf("p: %w", err)` is string
  concatenation.
* Each SQL statement is one atomic step on the table image.  The database is taken to be
  reachable: a statement fails only when it violates a constraint of the table or when its
  context is past its deadline.  The Go error branches are kept all the same.
* A send on the buffered channel `eventChan` appends to the list of events sent so far.
* A call is entered at the instant `now` passed to it; a handler takes the time it reports, and
  every other statement takes none, so `NOW()` and `time.Now()` are `now` before the handler
  and `now + elapsed` after it.
* A goroutine's loop is modelled by one round of it; a schedule is a list of rounds.  A Go
  panic is an `Except` error.
-/

namespace Gosynq

/-! ## internal/models/job.go -/

abbrev JobStatus := String

def StatusPending : JobStatus := "pending"

def StatusProcessing : JobStatus := "processing"

def StatusCompleted : JobStatus := "completed"

def StatusFailed : JobStatus := "failed"

def StatusCancelled : JobStatus := "cancelled"

abbrev JobPriority := String

def PriorityLow : JobPriority := "low"

def PriorityNormal : JobPriority := "normal"

def PriorityHigh : JobPriority := "high"

/-- The Go struct `models.Job`.  `LockedBy` is a plain string and `LockedAt` a pointer. -/
structure Job where
  ID : String
  Queue : String
  Payload : String
  MaxRetries : Int
  RunAt : Int
  CreatedAt : Int
  UpdatedAt : Int
  Status : JobStatus
  Priority : JobPriority
  IdempotencyKey : String
  LockedBy : String
  LockedAt : Option Int
  deriving DecidableEq, Repr

/-- The Go struct `models.JobAttempt`. -/
structure JobAttempt where
  ID : String
  JobID : String
  AttemptNumber : Int
  StartedAt : Int
  CompletedAt : Option Int
  Status : JobStatus
  ErrorMessage : String
  deriving DecidableEq, Repr

/-- The Go struct `models.JobEvent`; `Payload` is `none` when the field is left unset. -/
structure JobEvent where
  Type_ : String
  JobID : String
  Queue : String
  Timestamp : Int
  Payload : Option String
  Error : String
  deriving DecidableEq, Repr

/-- Go: `func (j *Job) IsRetryable() bool  return j.MaxRetries > 0`. -/
def Job.IsRetryable (j : Job) : Bool := decide (j.MaxRetries > 0)

/-- Go: `func (j *Job) ShouldRetry(attempts int) bool  return attempts < j.MaxRetries`. -/
def Job.ShouldRetry (j : Job) (attempts : Int) : Bool := decide (attempts < j.MaxRetries)

/-! ## 64-bit durations -/

/-- Two's complement wrap of an integer to `int64`, the result of Go's `int64` arithmetic. -/
def wrapInt64 (x : Int) : Int := (x + 2 ^ 63) % 2 ^ 64 - 2 ^ 63

/-- Go: `time.Second`, in nanoseconds. -/
def Second : Int := 1000000000

/-- Go: `time.Duration(math.Pow(2, math.Min(float64(attempt), 10)))`.
For `attempt >= 0` the exponent is the integer `min attempt 10` and `math.Pow` returns the exact
power of two; for `attempt < 0` the power lies in `[0, 1)` and the conversion truncates it
to `0`. -/
def pow2Capped (attempt : Int) : Int :=
  if attempt < 0 then 0 else 2 ^ (min attempt 10).toNat

/-! ## internal/worker/worker.go: configuration and retry policy -/

structure RetryStrategy where
  Type_ : String
  Interval : Int
  MaxAttempts : Int
  deriving DecidableEq, Repr

structure WorkerConfig where
  VisibilityTimeout : Int
  RetryStrategy : RetryStrategy
  deriving DecidableEq, Repr

/-- Go: `Worker.calculateRetryDelay`, on the worker's retry strategy.  Each `*` on
`time.Duration` is an `int64` multiplication. -/
def calculateRetryDelay (rs : RetryStrategy) (attempt : Int) : Int :=
  if rs.Type_ = "exponential" then
    wrapInt64 (wrapInt64 (pow2Capped attempt * Second) * rs.Interval)
  else if rs.Type_ = "fixed" then
    wrapInt64 (rs.Interval * Second)
  else
    wrapInt64 (rs.Interval * Second)

/-! ## internal/repository/postgres.go -/

/-- A row of the table `jobs`: the columns named by the statements of `postgres.go`.
`locked_by` and `locked_at` are nullable (they are set to `NULL` and read through
`sql.NullString` and `pq.NullTime`). -/
structure JobRow where
  id : String
  queue : String
  payload : String
  max_retries : Int
  run_at : Int
  created_at : Int
  updated_at : Int
  status : JobStatus
  priority : JobPriority
  idempotency_key : String
  locked_by : Option String
  locked_at : Option Int
  deriving DecidableEq, Repr

/-- The database: the tables `jobs` and `job_attempts`, rows in insertion order. -/
structure Store where
  jobs : List JobRow
  job_attempts : List JobAttempt
  deriving DecidableEq, Repr

/-- Modelled from the spec: the type of the column `jobs.priority` (the table definition is not
among the sources).  The spec compares priorities as `high > normal > low`; this is the sort key
of the column, any other text ranking with `low`. -/
def priorityRank (p : JobPriority) : Nat :=
  if p = "high" then 2 else if p = "normal" then 1 else 0

/-- Modelled from the spec: the uniqueness constraints of the table `jobs` (the table definition
is not among the sources).  `id` is globally unique, and `create_job` fails when a present
`idempotency_key` collides; the empty key that Go sends for an absent one never collides. -/
def insertViolation (jobs : List JobRow) (job : Job) : Option String :=
  if jobs.any (fun r => decide (r.id = job.ID)) then
    some "duplicate key value violates unique constraint on id"
  else if job.IdempotencyKey ≠ "" ∧
      jobs.any (fun r => decide (r.idempotency_key = job.IdempotencyKey)) = true then
    some "duplicate key value violates unique constraint on idempotency_key"
  else
    none

/-- Modelled from the spec: the row that `INSERT INTO jobs (id, queue, payload, max_retries,
run_at, priority, idempotency_key)` creates.  The columns the statement does not name take
their defaults, which the table definition (not among the sources) fixes: a new job is
`pending`, unlocked, and stamped by the store. -/
def insertedRow (job : Job) (now : Int) : JobRow :=
  { id := job.ID, queue := job.Queue, payload := job.Payload, max_retries := job.MaxRetries,
    run_at := job.RunAt, created_at := now, updated_at := now, status := "pending",
    priority := job.Priority, idempotency_key := job.IdempotencyKey,
    locked_by := none, locked_at := none }

/-- Go: `PostgresRepository.CreateJob`.  The `RETURNING created_at, updated_at` values are
scanned into the job. -/
def CreateJob (s : Store) (job : Job) (now : Int) : Except String (Job × Store) :=
  match insertViolation s.jobs job with
  | some err => .error err
  | none =>
    let row := insertedRow job now
    .ok ({ job with CreatedAt := row.created_at, UpdatedAt := row.updated_at },
         { s with jobs := s.jobs ++ [row] })

/-- The `WHERE status = 'pending' AND run_at <= NOW()` clause of `PickJob`. -/
def eligible (now : Int) (r : JobRow) : Bool :=
  decide (r.status = "pending") && decide (r.run_at ≤ now)

/-- The `ORDER BY priority DESC, created_at ASC` clause of `PickJob`: `a` is not after `b`. -/
def claimOrder (a b : JobRow) : Prop :=
  priorityRank b.priority < priorityRank a.priority ∨
    (priorityRank a.priority = priorityRank b.priority ∧ a.created_at ≤ b.created_at)

instance claimOrder.decidable : DecidableRel claimOrder := fun a b => by
  unfold claimOrder; exact inferInstance

instance claimOrder.isTotal : IsTotal JobRow claimOrder :=
  ⟨fun a b => by unfold claimOrder; omega⟩

instance claimOrder.isTrans : IsTrans JobRow claimOrder :=
  ⟨fun a b c => by unfold claimOrder; omega⟩

/-- The `UPDATE jobs SET status = 'processing', locked_by = $1, locked_at = NOW(),
updated_at = NOW()` assignment of `PickJob`. -/
def JobRow.lock (r : JobRow) (workerID : String) (now : Int) : JobRow :=
  { r with status := "processing", locked_by := some workerID, locked_at := some now,
           updated_at := now }

/-- The Go struct that `PickJob` scans from the ten columns of its `SELECT`; `locked_by` and
`locked_at` are not selected and keep their zero values. -/
def JobRow.scanned (r : JobRow) : Job :=
  { ID := r.id, Queue := r.queue, Payload := r.payload, MaxRetries := r.max_retries,
    RunAt := r.run_at, CreatedAt := r.created_at, UpdatedAt := r.updated_at,
    Status := r.status, Priority := r.priority, IdempotencyKey := r.idempotency_key,
    LockedBy := "", LockedAt := none }

/-- Go: `PostgresRepository.PickJob`, one serializable transaction taken as one step: the
`SELECT ... LIMIT 1` over the rows (none is locked by another transaction), then the `UPDATE ...
WHERE id = $2`.  The job returned holds the ten columns scanned by the `SELECT`, that is the
values before the update; the timeout argument is not used by the Go body either. -/
def PickJob (s : Store) (workerID : String) (_timeout : Int) (now : Int) :
    Except String (Option Job × Store) :=
  match ((s.jobs.filter (eligible now)).insertionSort claimOrder).head? with
  | none => .ok (none, s)
  | some r =>
    let job : Job := r.scanned
    .ok (some job,
         { s with jobs := s.jobs.map (fun x => if x.id = job.ID then x.lock workerID now else x) })

/-- The `SET status = $1, locked_by = NULL, locked_at = NULL, updated_at = NOW()` assignment of
`UpdateJobStatus`. -/
def JobRow.setStatus (r : JobRow) (status : JobStatus) (now : Int) : JobRow :=
  { r with status := status, locked_by := none, locked_at := none, updated_at := now }

/-- Go: `PostgresRepository.UpdateJobStatus`: every row `WHERE id = $2`, whatever its status. -/
def UpdateJobStatus (s : Store) (jobID : String) (status : JobStatus) (now : Int) :
    Except String Store :=
  .ok { s with jobs := s.jobs.map (fun x => if x.id = jobID then x.setStatus status now else x) }

/-- The `SET status = 'pending', run_at = $1, locked_by = NULL, locked_at = NULL,
updated_at = NOW()` assignment of `UpdateJobForRetry`. -/
def JobRow.setRetry (r : JobRow) (runAt : Int) (now : Int) : JobRow :=
  { r with status := "pending", run_at := runAt, locked_by := none, locked_at := none,
           updated_at := now }

/-- Go: `PostgresRepository.UpdateJobForRetry`. -/
def UpdateJobForRetry (s : Store) (jobID : String) (runAt : Int) (now : Int) :
    Except String Store :=
  .ok { s with jobs := s.jobs.map (fun x => if x.id = jobID then x.setRetry runAt now else x) }

/-- Modelled from the spec: the constraints of the table `job_attempts` (the table definition
is not among the sources).  The spec's persisted schema is `job_attempts(id pk, job_id fk,
attempt_number, ...)` with `(job_id, attempt_number)` unique: an insert is rejected when a row
has the same `id`, when a row has the same `job_id` and `attempt_number`, or when no job has
the id `job_id`. -/
def attemptViolation (s : Store) (attempt : JobAttempt) : Option String :=
  if s.job_attempts.any (fun a => decide (a.ID = attempt.ID)) then
    some "duplicate key value violates unique constraint on id"
  else if s.job_attempts.any
      (fun a => decide (a.JobID = attempt.JobID ∧ a.AttemptNumber = attempt.AttemptNumber)) then
    some "duplicate key value violates unique constraint on (job_id, attempt_number)"
  else if s.jobs.any (fun r => decide (r.id = attempt.JobID)) then
    none
  else
    some "insert violates foreign key constraint on job_id"

/-- Go: `PostgresRepository.CreateJobAttempt`, a plain `INSERT INTO job_attempts`. -/
def CreateJobAttempt (s : Store) (attempt : JobAttempt) : Except String Store :=
  match attemptViolation s attempt with
  | some err => .error err
  | none => .ok { s with job_attempts := s.job_attempts ++ [attempt] }

/-- Go: `PostgresRepository.GetJobAttempts`: `WHERE job_id = $1 ORDER BY attempt_number ASC`. -/
def GetJobAttempts (s : Store) (jobID : String) : Except String (List JobAttempt) :=
  .ok ((s.job_attempts.filter (fun a => decide (a.JobID = jobID))).insertionSort
        (fun a b => a.AttemptNumber ≤ b.AttemptNumber))

/-! ## internal/worker/worker.go -/

/-- What one call of a handler does: the error it returns (`none` for `nil`, `some msg` for an
error whose `Error()` is `msg`) and the time it takes, in nanoseconds. -/
structure HandlerResult where
  err : Option String
  elapsed : Nat
  deriving DecidableEq, Repr

/-- Go: `type JobHandler func(ctx context.Context, job *models.Job) error`, by what a call
does, given the deadline of `ctx` and the job. -/
abbrev JobHandler := Int → Job → HandlerResult

/-- Go: `ctx.Err()` at instant `t`, for the context that `context.WithTimeout` gave the deadline
`deadline` (the parent is `context.Background()`, as in `startWorker`): the context is done
from its deadline on. -/
def ctxErr (deadline t : Int) : Option String :=
  if deadline ≤ t then some "context deadline exceeded" else none

/-- A store call made at instant `t` with a context of deadline `deadline`: `database/sql`
returns the context's error, without running the statement, when the context is done. -/
def withContext {α : Type} (deadline t : Int) (call : Except String α) : Except String α :=
  match ctxErr deadline t with
  | some err => .error err
  | none => call

/-- Go: the struct `Worker` (`repo` and `eventChan` are shared and live in `State`). -/
structure Worker where
  id : String
  jobHandler : JobHandler
  config : WorkerConfig

/-- What the worker and the dispatcher share: the database behind `repo`, and the events sent on
`eventChan` so far, oldest first. -/
structure State where
  repo : Store
  eventChan : List JobEvent
  deriving DecidableEq, Repr

/-- A send `eventChan <- event`. -/
def State.send (st : State) (event : JobEvent) : State :=
  { st with eventChan := st.eventChan ++ [event] }

/-- Go: `Worker.handleJobFailure`, called at instant `t` with the context of `processJob`.
Returns the job as the caller sees it afterwards (the Go body writes `Status` and `RunAt`
through the pointer), the error, and the state.  The retry branch ends at the
`TODO: Implement job update with new run_at`: it writes nothing to the store. -/
def handleJobFailure (w : Worker) (deadline t : Int) (job : Job) (err : String) (st : State) :
    Job × Option String × State :=
  match withContext deadline t (UpdateJobStatus st.repo job.ID StatusFailed t) with
  | .error updateErr => (job, some ("failed to update job status: " ++ updateErr), st)
  | .ok repo1 =>
    let st1 := State.send { st with repo := repo1 }
      { Type_ := "failed", JobID := job.ID, Queue := job.Queue, Timestamp := t,
        Payload := some job.Payload, Error := err }
    if job.IsRetryable then
      match withContext deadline t (GetJobAttempts st1.repo job.ID) with
      | .error err2 => (job, some ("failed to get job attempts: " ++ err2), st1)
      | .ok attempts =>
        let currentAttempts : Int := attempts.length
        if job.ShouldRetry currentAttempts then
          let delay := calculateRetryDelay w.config.RetryStrategy currentAttempts
          ({ job with Status := StatusPending, RunAt := t + delay }, none, st1)
        else
          (job, none, st1)
    else
      (job, none, st1)

/-- Go: `Worker.processJob` up to the call of the handler, at instant `now`: the attempt record
is built and inserted, under the context of deadline `deadline`. -/
def processJobStart (deadline now : Int) (job : Job) (st : State) :
    Except String (JobAttempt × State) :=
  let attempt : JobAttempt :=
    { ID := job.ID ++ "-" ++ toString now, JobID := job.ID, AttemptNumber := 1,
      StartedAt := now, CompletedAt := none, Status := StatusProcessing, ErrorMessage := "" }
  match withContext deadline now (CreateJobAttempt st.repo attempt) with
  | .error err => .error ("failed to create job attempt: " ++ err)
  | .ok repo1 => .ok (attempt, { st with repo := repo1 })

/-- Go: `Worker.processJob` from the return of the handler on, at instant `t`; `result` is the
error the handler returned and `attempt` the record built before the call, which is inserted
once more.  `&time.Time{}` is the zero instant. -/
def processJobFinish (w : Worker) (deadline t : Int) (job : Job) (attempt : JobAttempt)
    (result : Option String) (st : State) : Job × Option String × State :=
  match result with
  | some err =>
    let attempt := { attempt with Status := StatusFailed, ErrorMessage := err,
                                  CompletedAt := some 0 }
    match withContext deadline t (CreateJobAttempt st.repo attempt) with
    | .error updateErr => (job, some ("failed to update job attempt: " ++ updateErr), st)
    | .ok repo1 => handleJobFailure w deadline t job err { st with repo := repo1 }
  | none =>
    let attempt := { attempt with Status := StatusCompleted, CompletedAt := some 0 }
    match withContext deadline t (CreateJobAttempt st.repo attempt) with
    | .error err => (job, some ("failed to update job attempt: " ++ err), st)
    | .ok repo1 =>
      match withContext deadline t (UpdateJobStatus repo1 job.ID StatusCompleted t) with
      | .error err =>
        (job, some ("failed to update job status: " ++ err), { st with repo := repo1 })
      | .ok repo2 =>
        (job, none, State.send { st with repo := repo2 }
          { Type_ := "succeeded", JobID := job.ID, Queue := job.Queue, Timestamp := t,
            Payload := some job.Payload, Error := "" })

/-- Go: `Worker.processJob`, entered at instant `now`: the context gets the deadline
`now + VisibilityTimeout`, the handler is called with it and returns `elapsed` later. -/
def processJob (w : Worker) (now : Int) (job : Job) (st : State) : Job × Option String × State :=
  let deadline := now + w.config.VisibilityTimeout
  match processJobStart deadline now job st with
  | .error err => (job, some err, st)
  | .ok (attempt, st1) =>
    processJobFinish w deadline (now + (w.jobHandler deadline job).elapsed) job attempt
      (w.jobHandler deadline job).err st1

/-- Go: `Worker.pickAndProcessJob`. -/
def pickAndProcessJob (w : Worker) (now : Int) (st : State) :
    Option Job × Option String × State :=
  match PickJob st.repo w.id w.config.VisibilityTimeout now with
  | .error err => (none, some ("failed to pick job: " ++ err), st)
  | .ok (none, repo1) => (none, none, { st with repo := repo1 })
  | .ok (some job, repo1) =>
    let st1 := State.send { st with repo := repo1 }
      { Type_ := "started", JobID := job.ID, Queue := job.Queue, Timestamp := now,
        Payload := some job.Payload, Error := "" }
    match processJob w now job st1 with
    | (job2, some err, st2) => (some job2, some ("job processing failed: " ++ err), st2)
    | (job2, none, st2) => (some job2, none, st2)

/-! ## internal/dispatcher/dispatcher.go -/

/-- Go: the `Set default values` block of `Dispatcher.EnqueueJob`. -/
def enqueueDefaults (job : Job) : Job :=
  let job := if job.Status = "" then { job with Status := StatusPending } else job
  let job := if job.Priority = "" then { job with Priority := PriorityNormal } else job
  let job := if job.Queue = "" then { job with Queue := "default" } else job
  job

/-- Go: `Dispatcher.EnqueueJob`.  Returns the job as the caller sees it afterwards, the error,
and the state. -/
def EnqueueJob (now : Int) (job : Job) (st : State) : Job × Option String × State :=
  let job := enqueueDefaults job
  match CreateJob st.repo job now with
  | .error err => (job, some ("failed to create job: " ++ err), st)
  | .ok (job1, repo1) =>
    (job1, none, State.send { st with repo := repo1 }
      { Type_ := "created", JobID := job1.ID, Queue := job1.Queue, Timestamp := now,
        Payload := some job1.Payload, Error := "" })

/-! ## cmd/server/main.go: admin handlers -/

/-- The stored status of the job `id`, if the job exists. -/
def Store.statusOf (s : Store) (id : String) : Option JobStatus :=
  (s.jobs.find? (fun r => decide (r.id = id))).map (fun r => r.status)

/-- The stored row of the job `id`, if the job exists. -/
def Store.row (s : Store) (id : String) : Option JobRow :=
  s.jobs.find? (fun r => decide (r.id = id))

/-- Successive `PickJob` calls, one per `(workerID, now)` of `calls`, each an atomic step on the
store left by the one before: the jobs returned, in call order, and the final store. -/
def pickSeq (s : Store) : List (String × Int) → List (Option Job) × Store
  | [] => ([], s)
  | (workerID, now) :: rest =>
    match PickJob s workerID 0 now with
    | .error _ => ((pickSeq s rest).1.cons none, (pickSeq s rest).2)
    | .ok (job, s1) => ((pickSeq s1 rest).1.cons job, (pickSeq s1 rest).2)

/-- The primary key of the table `jobs`: no two rows share an `id`. -/
def Store.wf (s : Store) : Prop := (s.jobs.map (fun r => r.id)).Nodup

instance Store.wf.decidable (s : Store) : Decidable s.wf := by
  unfold Store.wf; exact inferInstance

/-- Worker `workerID` holds job `id`: a row of that id is `processing` and locked by it. -/
def Store.holds (s : Store) (workerID : String) (id : String) : Prop :=
  ∃ r ∈ s.jobs, r.id = id ∧ r.status = StatusProcessing ∧ r.locked_by = some workerID

/-- The stores the system reaches: from the empty tables by `CreateJob`, `PickJob`,
`UpdateJobStatus` with one of the four statuses the callers pass (`completed` and `failed` in
the worker, `pending` and `cancelled` in the admin handlers), `UpdateJobForRetry` and
`CreateJobAttempt`. -/
inductive Reachable : Store → Prop
  | empty : Reachable { jobs := [], job_attempts := [] }
  | createJob (s s1 : Store) (job job1 : Job) (now : Int) :
      Reachable s → CreateJob s job now = .ok (job1, s1) → Reachable s1
  | pickJob (s s1 : Store) (workerID : String) (timeout now : Int) (job : Option Job) :
      Reachable s → PickJob s workerID timeout now = .ok (job, s1) → Reachable s1
  | updateJobStatus (s s1 : Store) (jobID : String) (status : JobStatus) (now : Int) :
      Reachable s →
      status = StatusCompleted ∨ status = StatusFailed ∨ status = StatusPending ∨
        status = StatusCancelled →
      UpdateJobStatus s jobID status now = .ok s1 → Reachable s1
  | updateJobForRetry (s s1 : Store) (jobID : String) (runAt now : Int) :
      Reachable s → UpdateJobForRetry s jobID runAt now = .ok s1 → Reachable s1
  | createJobAttempt (s s1 : Store) (attempt : JobAttempt) :
      Reachable s → CreateJobAttempt s attempt = .ok s1 → Reachable s1

/-! ## internal/websocket/websocket.go -/

/-- A Go channel of messages: the messages buffered in it, oldest first, and whether `close` was
called on it. -/
structure Chan where
  buf : List String
  closed : Bool
  deriving DecidableEq, Repr

/-- Go: the capacity in `send: make(chan []byte, 256)`. -/
def sendCapacity : Nat := 256

/-- Go: `close(ch)`; closing a closed channel panics. -/
def Chan.close (ch : Chan) : Except String Chan :=
  if ch.closed then .error "panic: close of closed channel"
  else .ok { ch with closed := true }

/-- Go: `select { case ch <- msg: default: }` on a channel of capacity `cap`: the message is
buffered when there is room and dropped when the buffer is full; it never waits.  A send on a
closed channel panics, also inside a `select`. -/
def Chan.trySend (ch : Chan) (msg : String) (cap : Nat) : Except String Chan :=
  if ch.closed then .error "panic: send on closed channel"
  else if ch.buf.length < cap then .ok { ch with buf := ch.buf ++ [msg] }
  else .ok ch

/-- Go: the struct `WebSocketServer` with the `Client` objects it points to.  A `*Client` is a
natural number (its identity); `clients` lists the keys of the map `clients`, `send c` is the
channel `c.send`, `conn c` the text messages written to `c.conn` so far, `next` the identity
the next `&Client` gets, and `shutdownCh` tells whether that channel is closed. -/
structure WebSocketServer where
  clients : List Nat
  send : Nat → Chan
  conn : Nat → List String
  next : Nat
  shutdownCh : Bool

/-- Go: `NewWebSocketServer`. -/
def NewWebSocketServer : WebSocketServer :=
  { clients := [], send := fun _ => { buf := [], closed := false }, conn := fun _ => [],
    next := 0, shutdownCh := false }

/-- The loop `for client := range s.clients` of `broadcastEvent` over the keys `clients`, on the
channels `send`. -/
def broadcastTo (msg : String) : List Nat → (Nat → Chan) → Except String (Nat → Chan)
  | [], send => .ok send
  | client :: rest, send =>
    match (send client).trySend msg sendCapacity with
    | .error e => .error e
    | .ok ch => broadcastTo msg rest (Function.update send client ch)

/-- Go: `WebSocketServer.broadcastEvent`.  `toJSON` is `JobEvent.ToJSON` (it rests on
`encoding/json`, which is not part of the sources, and is taken as given). -/
def broadcastEvent (toJSON : JobEvent → String) (s : WebSocketServer) (event : JobEvent) :
    Except String WebSocketServer :=
  match broadcastTo (toJSON event) s.clients s.send with
  | .error e => .error e
  | .ok send1 => .ok { s with send := send1 }

/-- Go: `WebSocketServer.HandleWebSocket` on the server state; `upgradeOk` tells whether
`upgrader.Upgrade` succeeded.  The new client gets a fresh identity and an empty open channel. -/
def HandleWebSocket (s : WebSocketServer) (upgradeOk : Bool) : WebSocketServer :=
  if upgradeOk then
    { s with clients := s.clients ++ [s.next],
             send := Function.update s.send s.next { buf := [], closed := false },
             conn := Function.update s.conn s.next [],
             next := s.next + 1 }
  else s

/-- Go: `WebSocketServer.removeClient`. -/
def removeClient (s : WebSocketServer) (client : Nat) : Except String WebSocketServer :=
  if client ∈ s.clients then
    match (s.send client).close with
    | .error e => .error e
    | .ok ch =>
      .ok { s with send := Function.update s.send client ch,
                   clients := s.clients.filter (fun c => decide (c ≠ client)) }
  else .ok s

/-- The loop `for client := range s.clients` of `Shutdown`: `close(client.send)` for each key;
no key is deleted. -/
def closeAll : List Nat → (Nat → Chan) → Except String (Nat → Chan)
  | [], send => .ok send
  | client :: rest, send =>
    match (send client).close with
    | .error e => .error e
    | .ok ch => closeAll rest (Function.update send client ch)

/-- Go: `WebSocketServer.Shutdown` up to its `shutdownWg.Wait()`: `close(s.shutdownCh)`, then
the loop over the clients. -/
def WebSocketServer.Shutdown (s : WebSocketServer) : Except String WebSocketServer :=
  if s.shutdownCh then .error "panic: close of closed channel"
  else
    match closeAll s.clients s.send with
    | .error e => .error e
    | .ok send1 => .ok { s with shutdownCh := true, send := send1 }

/-- Go: one round of the loop of `writePump` on the case `message, ok := <-client.send`.
A buffered message is received and written to the connection; on a closed and drained channel
`ok` is false and `writePump` returns, which runs its deferred `removeClient`; on an open empty
channel the case is not ready and nothing happens. -/
def writePump (s : WebSocketServer) (client : Nat) : Except String WebSocketServer :=
  match (s.send client).buf with
  | msg :: rest =>
    .ok { s with send := Function.update s.send client { s.send client with buf := rest },
                 conn := Function.update s.conn client (s.conn client ++ [msg]) }
  | [] => if (s.send client).closed then removeClient s client else .ok s

/-- An operation on the bus: a broadcast, a round of a client's `writePump`, a new connection,
a `removeClient`, or `Shutdown`. -/
inductive BusOp where
  | broadcast (event : JobEvent)
  | write (client : Nat)
  | attach
  | remove (client : Nat)
  | shutdown
  deriving DecidableEq, Repr

/-- One operation on the bus. -/
def BusOp.apply (toJSON : JobEvent → String) (s : WebSocketServer) :
    BusOp → Except String WebSocketServer
  | .broadcast event => broadcastEvent toJSON s event
  | .write client => writePump s client
  | .attach => .ok (HandleWebSocket s true)
  | .remove client => removeClient s client
  | .shutdown => s.Shutdown

/-- A sequence of operations on the bus, each on the state the one before left; a panic ends
the run. -/
def runBus (toJSON : JobEvent → String) : WebSocketServer → List BusOp →
    Except String WebSocketServer
  | s, [] => .ok s
  | s, op :: rest =>
    match op.apply toJSON s with
    | .error e => .error e
    | .ok s1 => runBus toJSON s1 rest

/-- The events broadcast by a sequence of operations, in order. -/
def broadcasts : List BusOp → List JobEvent
  | [] => []
  | .broadcast event :: rest => event :: broadcasts rest
  | _ :: rest => broadcasts rest

/-- The subscriber set is a set, every subscriber in it has an open channel holding at most
`sendCapacity` messages, and identities not yet handed out are not in it. -/
def WebSocketServer.wf (s : WebSocketServer) : Prop :=
  s.clients.Nodup ∧
    ∀ c ∈ s.clients, (s.send c).closed = false ∧ (s.send c).buf.length ≤ sendCapacity ∧ c < s.next

/-! ## The channel `eventChan` and its two receivers -/

/-- The channel `Dispatcher.eventChan` with what lies behind it.  `main` hands
`disp.GetEventChannel()`, which is `d.eventChan` itself, to `NewWebSocketServer`; so the loops
`Dispatcher.processEvents` and `WebSocketServer.processEvents` receive from the same channel,
and a value sent on a Go channel is received once, by one of them.  `eventChan` holds the events
sent and not yet received, oldest first; `log` is what `log.Printf` printed. -/
structure EventFlow where
  eventChan : List JobEvent
  ws : WebSocketServer
  log : List String

/-- Go: one round of the loop of `Dispatcher.processEvents` on the case
`event := <-d.eventChan`: the event is received and two lines are logged. -/
def Dispatcher.processEvents (f : EventFlow) : EventFlow :=
  match f.eventChan with
  | [] => f
  | event :: rest =>
    { f with eventChan := rest,
             log := f.log ++
               ["Dispatcher received event: " ++ event.Type_ ++ " - Job " ++ event.JobID ++
                  " from queue " ++ event.Queue,
                "Dispatcher broadcasting event to WebSocket clients"] }

/-- Go: one round of the loop of `WebSocketServer.processEvents` on the case
`event := <-s.eventChan`: the event is received and broadcast. -/
def WebSocketServer.processEvents (toJSON : JobEvent → String) (f : EventFlow) :
    Except String EventFlow :=
  match f.eventChan with
  | [] => .ok f
  | event :: rest =>
    match broadcastEvent toJSON f.ws event with
    | .error e => .error e
    | .ok ws1 => .ok { f with eventChan := rest, ws := ws1 }

/-! ## internal/dispatcher/dispatcher.go: the worker pool and shutdown -/

/-- A goroutine started by `startWorker`, running `worker.Start`: the worker, whether its own
channel `shutdownCh` (made by `NewWorker`) is closed, and whether `Start` has returned, which
runs the deferred `d.shutdownWg.Done()`. -/
structure WorkerRun where
  worker : Worker
  shutdownCh : Bool
  returned : Bool

/-- Go: the struct `DispatcherConfig`. -/
structure DispatcherConfig where
  WorkerPoolSize : Int
  VisibilityTimeout : Int
  RetryStrategy : RetryStrategy
  deriving DecidableEq, Repr

/-- Go: the struct `Dispatcher`, as far as the pool and shutdown go: the field `workers`,
the goroutines counted by `shutdownWg`, whether `shutdownCh` and `eventChan` are closed, and
the configuration. -/
structure Dispatcher where
  workers : List Worker
  running : List WorkerRun
  shutdownCh : Bool
  eventChanClosed : Bool
  config : DispatcherConfig

/-- Go: `NewDispatcher`; the field `workers` is left `nil`. -/
def NewDispatcher (config : DispatcherConfig) : Dispatcher :=
  { workers := [], running := [], shutdownCh := false, eventChanClosed := false,
    config := config }

/-- Go: `Dispatcher.startWorker`; `jobHandler` stands for the handler closure built there.
`NewWorker` makes the worker's own `shutdownCh`; the worker is handed to a goroutine and is not
stored in `d.workers`. -/
def Dispatcher.startWorker (d : Dispatcher) (jobHandler : JobHandler) (id : Nat) : Dispatcher :=
  let worker : Worker :=
    { id := "worker-" ++ toString id, jobHandler := jobHandler,
      config := { VisibilityTimeout := d.config.VisibilityTimeout,
                  RetryStrategy := d.config.RetryStrategy } }
  { d with running := d.running ++ [{ worker := worker, shutdownCh := false,
                                      returned := false }] }

/-- Go: `Dispatcher.Start`: `startWorker(i)` for `i` from `0` below `WorkerPoolSize`.  The
loop it then spawns, `go d.processEvents(ctx)`, is `Dispatcher.processEvents` above. -/
def Dispatcher.Start (d : Dispatcher) (jobHandler : JobHandler) : Dispatcher :=
  (List.range d.config.WorkerPoolSize.toNat).foldl (fun d i => d.startWorker jobHandler i) d

/-- Go: `Worker.Shutdown`: `close(w.shutdownCh)`. -/
def Worker.Shutdown (r : WorkerRun) : Except String WorkerRun :=
  if r.shutdownCh then .error "panic: close of closed channel"
  else .ok { r with shutdownCh := true }

/-- Go: one round of the loop of `Worker.Start`: when `w.shutdownCh` is closed the `select`
takes that case and `Start` returns; otherwise it takes `default` and runs
`pickAndProcessJob` (the sleeps are left out). -/
def Worker.Start (r : WorkerRun) (now : Int) (st : State) : WorkerRun × State :=
  if r.returned then (r, st)
  else if r.shutdownCh then ({ r with returned := true }, st)
  else (r, (pickAndProcessJob r.worker now st).2.2)

/-- Go: the first statement of `Dispatcher.Shutdown`, `close(d.shutdownCh)`. -/
def Dispatcher.ShutdownSignal (d : Dispatcher) : Except String Dispatcher :=
  if d.shutdownCh then .error "panic: close of closed channel"
  else .ok { d with shutdownCh := true }

/-- Go: `d.shutdownWg.Wait()` returns exactly when every started goroutine has returned. -/
def Dispatcher.waitDone (d : Dispatcher) : Bool :=
  d.running.all (fun r => r.returned)

/-- Go: the rest of `Dispatcher.Shutdown` once `Wait` has returned: `close(d.eventChan)`;
`none` while `Wait` still blocks. -/
def Dispatcher.ShutdownFinish (d : Dispatcher) : Option (Except String Dispatcher) :=
  if d.waitDone then
    some (if d.eventChanClosed then .error "panic: close of closed channel"
          else .ok { d with eventChanClosed := true })
  else none

/-- A schedule of worker rounds: `(i, now)` lets the `i`-th started worker run one round of its
loop at instant `now`. -/
def runWorkers (d : Dispatcher) (st : State) : List (Nat × Int) → Dispatcher × State
  | [] => (d, st)
  | (i, now) :: rest =>
    match d.running.get? i with
    | none => runWorkers d st rest
    | some r =>
      runWorkers { d with running := d.running.set i (Worker.Start r now st).1 }
        (Worker.Start r now st).2 rest

/-! ## Example data -/

/-- A pending, unlocked row due at instant `0`. -/
def exRow (id : String) (priority : JobPriority) (created : Int) (maxRetries : Int) : JobRow :=
  { id := id, queue := "default", payload := "x", max_retries := maxRetries, run_at := 0,
    created_at := created, updated_at := created, status := "pending", priority := priority,
    idempotency_key := "", locked_by := none, locked_at := none }

/-- The seed of the priority scenario: A(low, 0), B(high, 1), C(normal, 2), D(high, 3). -/
def exSeed : Store :=
  { jobs := [exRow "A" "low" 0 3, exRow "B" "high" 1 3, exRow "C" "normal" 2 3,
             exRow "D" "high" 3 3],
    job_attempts := [] }

/-- A store with the single job `J`. -/
def exOne (maxRetries : Int) : Store :=
  { jobs := [exRow "J" "normal" 0 maxRetries], job_attempts := [] }

/-- The retry settings of `config.NewDefaultConfig`. -/
def exConfig : WorkerConfig :=
  { VisibilityTimeout := 30 * Second,
    RetryStrategy := { Type_ := "exponential", Interval := 5, MaxAttempts := 5 } }

/-- A worker whose handler succeeds. -/
def exWorkerOk : Worker :=
  { id := "worker-0", jobHandler := fun _ _ => { err := none, elapsed := 0 },
    config := exConfig }

/-- A worker whose handler fails with `boom`. -/
def exWorkerFail : Worker :=
  { id := "worker-0", jobHandler := fun _ _ => { err := some "boom", elapsed := 0 },
    config := exConfig }

/-- A job as the HTTP handler builds it, with an idempotency key. -/
def exJob (id : String) (key : String) : Job :=
  { ID := id, Queue := "", Payload := "x", MaxRetries := 3, RunAt := 0, CreatedAt := 0,
    UpdatedAt := 0, Status := "", Priority := "", IdempotencyKey := key, LockedBy := "",
    LockedAt := none }

/-- Job `J` (with `maxRetries`) claimed by `worker-0` at instant 10, with the attempt row that
`processJob` inserts before it calls the handler. -/
def exClaimed (maxRetries : Int) : State :=
  { repo := { jobs := [(exRow "J" "normal" 0 maxRetries).lock "worker-0" 10],
              job_attempts := [{ ID := "J-10", JobID := "J", AttemptNumber := 1, StartedAt := 10,
                                 CompletedAt := none, Status := StatusProcessing,
                                 ErrorMessage := "" }] },
    eventChan := [] }

/-- A store holding one job with the idempotency key `k`. -/
def exKeyed : Store :=
  { jobs := [{ exRow "J" "normal" 0 3 with idempotency_key := "k" }], job_attempts := [] }

/-- A stand-in for `JobEvent.ToJSON`: the type and the job id. -/
def exToJSON (e : JobEvent) : String := e.Type_ ++ ":" ++ e.JobID

/-- An event of type `t` for job `J`. -/
def exEvent (t : String) : JobEvent :=
  { Type_ := t, JobID := "J", Queue := "default", Timestamp := 0, Payload := none, Error := "" }

/-- Two subscribers: `0` with a full queue of 256 messages, `1` with an empty queue. -/
def exBus : WebSocketServer :=
  { clients := [0, 1],
    send := fun c => if c = 0 then { buf := List.replicate 256 "m", closed := false }
                     else { buf := [], closed := false },
    conn := fun _ => [], next := 2, shutdownCh := false }

/-- A dispatcher configuration with a pool of two workers and the default retry settings. -/
def exDispatcherConfig : DispatcherConfig :=
  { WorkerPoolSize := 2, VisibilityTimeout := 30 * Second,
    RetryStrategy := exConfig.RetryStrategy }

/-- The `created` event of job `J` sits in `eventChan`, as `EnqueueJob` sent it, and one
subscriber is attached. -/
def exFlow : EventFlow :=
  { eventChan := (EnqueueJob 7 (exJob "J" "k")
      { repo := { jobs := [], job_attempts := [] }, eventChan := [] }).2.2.eventChan,
    ws := HandleWebSocket NewWebSocketServer true,
    log := [] }

/-- A dispatcher started with two workers whose handler succeeds after one second. -/
def exDispatcher : Dispatcher :=
  (NewDispatcher exDispatcherConfig).Start (fun _ _ => { err := none, elapsed := 1000000000 })

/-- The dispatcher `exDispatcher` right after the signalling step of `Shutdown`. -/
def exSignalled : Dispatcher :=
  match exDispatcher.ShutdownSignal with
  | .ok d => d
  | .error _ => exDispatcher

/-! ## Lemmas on the store -/

theorem wrapInt64_of_range (x : Int) (h0 : -(2 ^ 63) ≤ x) (h1 : x < 2 ^ 63) :
    wrapInt64 x = x := by
  unfold wrapInt64
  omega

theorem pow2Capped_of_nonneg (n : Int) (h : 0 ≤ n) :
    pow2Capped n = 2 ^ (min n 10).toNat := by
  unfold pow2Capped
  rw [if_neg (by omega)]

theorem pow2_le_1024 (n : Int) : (2 : Int) ^ (min n 10).toNat ≤ 1024 := by
  have hk : (min n 10).toNat ≤ 10 := by omega
  calc (2 : Int) ^ (min n 10).toNat ≤ 2 ^ 10 := pow_le_pow_right₀ (by norm_num) hk
    _ = 1024 := by norm_num

theorem find?_map_update (l : List JobRow) (i : String) (f : JobRow → JobRow)
    (hf : ∀ r, (f r).id = r.id) :
    (l.map (fun x => if x.id = i then f x else x)).find? (fun r => decide (r.id = i))
      = (l.find? (fun r => decide (r.id = i))).map f := by
  induction l with
  | nil => rfl
  | cons a t ih =>
    by_cases h : a.id = i
    · simp [List.find?, h, hf]
    · simp [List.find?, h, ih]

theorem lock_id (w : String) (now : Int) (r : JobRow) : (r.lock w now).id = r.id := rfl

/-- `PickJob` always returns: either no row is eligible and the store is unchanged, or the first
row in claim order is returned and every row of its id is locked. -/
theorem PickJob_cases (s : Store) (w : String) (t : Int) (now : Int) :
    (PickJob s w t now = .ok (none, s) ∧ ∀ x ∈ s.jobs, eligible now x = false) ∨
    (∃ r ∈ s.jobs, eligible now r = true ∧
      (∀ x ∈ s.jobs, eligible now x = true → claimOrder r x) ∧
      PickJob s w t now = .ok (some r.scanned,
        { s with jobs := s.jobs.map (fun x => if x.id = r.id then x.lock w now else x) })) := by
  have hsorted := List.sorted_insertionSort claimOrder (s.jobs.filter (eligible now))
  have hperm := List.perm_insertionSort claimOrder (s.jobs.filter (eligible now))
  unfold PickJob
  cases hl : (s.jobs.filter (eligible now)).insertionSort claimOrder with
  | nil =>
    left
    refine ⟨rfl, ?_⟩
    rw [hl] at hperm
    have hnil := hperm.symm.eq_nil
    intro x hx
    by_contra hne
    have hmem : x ∈ s.jobs.filter (eligible now) :=
      List.mem_filter.mpr ⟨hx, by simpa using hne⟩
    rw [hnil] at hmem
    exact absurd hmem (List.not_mem_nil x)
  | cons r tl =>
    right
    rw [hl] at hperm hsorted
    have hmem : r ∈ s.jobs.filter (eligible now) := hperm.subset (List.mem_cons_self _ _)
    rw [List.mem_filter] at hmem
    refine ⟨r, hmem.1, hmem.2, ?_, rfl⟩
    intro x hx hex
    have hx2 : x ∈ r :: tl := hperm.symm.subset (List.mem_filter.mpr ⟨hx, hex⟩)
    rcases List.mem_cons.mp hx2 with hx3 | hx3
    · subst hx3; exact (total_of claimOrder x x).elim id id
    · exact List.rel_of_sorted_cons hsorted x hx3

theorem PickJob_some (s : Store) (w : String) (t : Int) (now : Int) (job : Job)
    (repo1 : Store) (h : PickJob s w t now = .ok (some job, repo1)) :
    ∃ r ∈ s.jobs, eligible now r = true ∧ job = r.scanned ∧
      (∀ x ∈ s.jobs, eligible now x = true → claimOrder r x) ∧
      repo1 = { s with jobs := s.jobs.map (fun x => if x.id = r.id then x.lock w now else x) } := by
  rcases PickJob_cases s w t now with ⟨h0, _⟩ | ⟨r, hmem, hel, hmin, h1⟩
  · rw [h0] at h; simp at h
  · rw [h1] at h
    simp only [Except.ok.injEq, Prod.mk.injEq, Option.some.injEq] at h
    exact ⟨r, hmem, hel, h.1.symm, hmin, h.2.symm⟩

theorem row_exists_of_mem (s : Store) (r : JobRow) (h : r ∈ s.jobs) :
    ∃ r0, s.row r.id = some r0 := by
  unfold Store.row
  cases hf : s.jobs.find? (fun x => decide (x.id = r.id)) with
  | some r0 => exact ⟨r0, rfl⟩
  | none =>
    rw [List.find?_eq_none] at hf
    exact absurd (hf r h) (by simp)

theorem row_PickJob (s repo1 : Store) (w : String) (t : Int) (now : Int) (job : Job)
    (h : PickJob s w t now = .ok (some job, repo1)) :
    ∃ r, s.row job.ID = some r ∧ repo1.row job.ID = some (r.lock w now) ∧
      repo1.job_attempts = s.job_attempts := by
  obtain ⟨r, hmem, _, hjob, _, hrepo⟩ := PickJob_some s w t now job repo1 h
  obtain ⟨r0, hr0⟩ := row_exists_of_mem s r hmem
  have hid : job.ID = r.id := by rw [hjob]; rfl
  refine ⟨r0, by rw [hid]; exact hr0, ?_, by rw [hrepo]⟩
  rw [hrepo, hid]
  unfold Store.row at hr0 ⊢
  simp only
  rw [find?_map_update s.jobs r.id (fun x => x.lock w now) (lock_id w now), hr0]
  rfl

/-! ## Lemmas on the worker -/

theorem withContext_ok {α : Type} (deadline t : Int) (call : Except String α) (x : α)
    (h : withContext deadline t call = .ok x) : call = .ok x := by
  unfold withContext at h
  split at h
  · simp at h
  · exact h

theorem CreateJobAttempt_ok (s s1 : Store) (attempt : JobAttempt)
    (h : CreateJobAttempt s attempt = .ok s1) :
    s1 = { s with job_attempts := s.job_attempts ++ [attempt] } := by
  unfold CreateJobAttempt at h
  split at h
  · simp at h
  · simp only [Except.ok.injEq] at h
    exact h.symm

theorem CreateJobAttempt_same_id (s : Store) (a attempt : JobAttempt) (ha : a ∈ s.job_attempts)
    (hid : a.ID = attempt.ID) :
    CreateJobAttempt s attempt = .error "duplicate key value violates unique constraint on id" := by
  have hany : s.job_attempts.any (fun x => decide (x.ID = attempt.ID)) = true := by
    rw [List.any_eq_true]
    exact ⟨a, ha, by simp [hid]⟩
  simp only [CreateJobAttempt, attemptViolation, hany, if_true]

/-- The second insert of `processJob` carries the `id` of the first and is rejected by the
primary key, or the context is past its deadline: `processJob` always returns an error, and it
changes neither the table `jobs` nor the events sent. -/
theorem processJob_stuck (w : Worker) (now : Int) (job : Job) (st : State) :
    (∃ err, (processJob w now job st).2.1 = some err) ∧
    (processJob w now job st).2.2.repo.jobs = st.repo.jobs ∧
    (processJob w now job st).2.2.eventChan = st.eventChan := by
  unfold processJob processJobStart
  simp only
  cases h1 : withContext (now + w.config.VisibilityTimeout) now
      (CreateJobAttempt st.repo
        { ID := job.ID ++ "-" ++ toString now, JobID := job.ID, AttemptNumber := 1,
          StartedAt := now, CompletedAt := none, Status := StatusProcessing,
          ErrorMessage := "" }) with
  | error e => exact ⟨⟨_, rfl⟩, rfl, rfl⟩
  | ok repo1 =>
    have hrepo := CreateJobAttempt_ok _ _ _ (withContext_ok _ _ _ _ h1)
    have hdup : ∀ (a2 : JobAttempt), a2.ID = job.ID ++ "-" ++ toString now →
        ∀ t, ∃ e, withContext (now + w.config.VisibilityTimeout) t
          (CreateJobAttempt repo1 a2) = .error e := by
      intro a2 hid t
      unfold withContext
      cases ctxErr (now + w.config.VisibilityTimeout) t with
      | some e => exact ⟨e, rfl⟩
      | none =>
        refine ⟨_, CreateJobAttempt_same_id repo1
          { ID := job.ID ++ "-" ++ toString now, JobID := job.ID, AttemptNumber := 1,
            StartedAt := now, CompletedAt := none, Status := StatusProcessing,
            ErrorMessage := "" } a2 ?_ hid.symm⟩
        rw [hrepo]
        simp
    simp only [processJobFinish]
    cases hres : (w.jobHandler (now + w.config.VisibilityTimeout) job).err with
    | some err =>
      obtain ⟨e, he⟩ := hdup
        { ID := job.ID ++ "-" ++ toString now, JobID := job.ID, AttemptNumber := 1,
          StartedAt := now, CompletedAt := some 0, Status := StatusFailed,
          ErrorMessage := err } rfl
        (now + (w.jobHandler (now + w.config.VisibilityTimeout) job).elapsed)
      simp only [he]
      refine ⟨?_, by rw [hrepo], ?_⟩
      · exact ⟨_, rfl⟩
      · trivial
    | none =>
      obtain ⟨e, he⟩ := hdup
        { ID := job.ID ++ "-" ++ toString now, JobID := job.ID, AttemptNumber := 1,
          StartedAt := now, CompletedAt := some 0, Status := StatusCompleted,
          ErrorMessage := "" } rfl
        (now + (w.jobHandler (now + w.config.VisibilityTimeout) job).elapsed)
      simp only [he]
      refine ⟨?_, by rw [hrepo], ?_⟩
      · exact ⟨_, rfl⟩
      · trivial

/-- After a claim, `pickAndProcessJob` sends `started` and returns an error; the table `jobs` is
as the claim left it. -/
theorem pickAndProcessJob_stuck (w : Worker) (now : Int) (st : State) (job : Job)
    (repo1 : Store)
    (hpick : PickJob st.repo w.id w.config.VisibilityTimeout now = .ok (some job, repo1)) :
    (∃ err, (pickAndProcessJob w now st).2.1 = some err) ∧
    (pickAndProcessJob w now st).2.2.repo.jobs = repo1.jobs ∧
    (pickAndProcessJob w now st).2.2.eventChan = st.eventChan ++
      [{ Type_ := "started", JobID := job.ID, Queue := job.Queue, Timestamp := now,
         Payload := some job.Payload, Error := "" }] := by
  obtain ⟨⟨err, h1⟩, h2, h3⟩ := processJob_stuck w now job
    (State.send { st with repo := repo1 }
      { Type_ := "started", JobID := job.ID, Queue := job.Queue, Timestamp := now,
        Payload := some job.Payload, Error := "" })
  simp only [pickAndProcessJob, hpick]
  split
  · rename_i heq
    rw [heq] at h2 h3
    exact ⟨⟨_, rfl⟩, h2, h3⟩
  · rename_i heq
    rw [heq] at h1
    simp at h1

/-! ## Retry delay -/

/-- C1 (counterexample): with base interval 10 000 000 s and attempt count 10 the `int64`
product wraps, so the delay is not `I * 2^min(n,10)` seconds for every `I >= 0`. -/
theorem calculateRetryDelay_exponential_wraps :
    ¬ (∀ (I n m : Int), 0 ≤ I → 1 ≤ n →
        calculateRetryDelay { Type_ := "exponential", Interval := I, MaxAttempts := m } n
          = I * 2 ^ (min n 10).toNat * 1000000000) := by
  intro h
  have h1 := h 10000000 10 5 (by decide) (by decide)
  revert h1
  decide

/-- C1 (amended): for the strategy `exponential`, a base interval `I >= 0` and an attempt
count `n >= 1` such that `I * 2^min(n,10) * 10^9` fits in an `int64`, `calculateRetryDelay n`
is exactly `I * 2^min(n,10) * 10^9` nanoseconds. -/
theorem calculateRetryDelay_exponential_of_fits (rs : RetryStrategy) (n : Int)
    (hty : rs.Type_ = "exponential") (hI : 0 ≤ rs.Interval) (hn : 1 ≤ n)
    (hfit : rs.Interval * 2 ^ (min n 10).toNat * 1000000000 < 2 ^ 63) :
    calculateRetryDelay rs n = rs.Interval * 2 ^ (min n 10).toNat * 1000000000 := by
  have hp : (0 : Int) < 2 ^ (min n 10).toNat := by positivity
  have hle := pow2_le_1024 n
  unfold calculateRetryDelay
  rw [if_pos hty, pow2Capped_of_nonneg n (by omega)]
  have hin : wrapInt64 (2 ^ (min n 10).toNat * Second) = 2 ^ (min n 10).toNat * Second := by
    apply wrapInt64_of_range <;> (unfold Second; omega)
  rw [hin]
  have heq : 2 ^ (min n 10).toNat * Second * rs.Interval
      = rs.Interval * 2 ^ (min n 10).toNat * 1000000000 := by
    unfold Second; ring
  rw [heq]
  apply wrapInt64_of_range
  · have : 0 ≤ rs.Interval * 2 ^ (min n 10).toNat * 1000000000 := by positivity
    omega
  · exact hfit

/-- C1 (witness): the default configuration, interval 5 s, after the third attempt: 40 s. -/
theorem calculateRetryDelay_exponential_of_fits_witness :
    calculateRetryDelay exConfig.RetryStrategy 3 = 40000000000 :=
  calculateRetryDelay_exponential_of_fits exConfig.RetryStrategy 3 rfl (by decide) (by decide)
    (by decide)

/-! ## The worker's outcome paths -/

/-- C2 (evaluation at the failing input): job `J` with `max_retries = 3` is claimed at instant
10 and its handler fails with `boom`.  Called on the claimed job with its one attempt row,
inside the deadline, `handleJobFailure` takes the retry branch: the Go job value is set to
`pending` with `RunAt = now + 10 s`, but the stored row is `failed` with its old `run_at`, and
the only event sent is `failed`, no `retry_scheduled`.  Through `pickAndProcessJob` the failure
path is not even reached (the second attempt insert is rejected): the stored row stays
`processing` and locked, and the only event is `started`. -/
theorem handleJobFailure_retry_not_stored :
    ((handleJobFailure exWorkerFail (10 + 30 * Second) 10 (exRow "J" "normal" 0 3).scanned "boom"
        (exClaimed 3)).1.Status,
     (handleJobFailure exWorkerFail (10 + 30 * Second) 10 (exRow "J" "normal" 0 3).scanned "boom"
        (exClaimed 3)).1.RunAt) = (StatusPending, 10 + 10 * Second) ∧
    (handleJobFailure exWorkerFail (10 + 30 * Second) 10 (exRow "J" "normal" 0 3).scanned "boom"
        (exClaimed 3)).2.1 = none ∧
    ((handleJobFailure exWorkerFail (10 + 30 * Second) 10 (exRow "J" "normal" 0 3).scanned "boom"
        (exClaimed 3)).2.2.repo.row "J").map
        (fun r => (r.status, r.run_at, r.locked_by, r.locked_at))
      = some (StatusFailed, 0, none, none) ∧
    (handleJobFailure exWorkerFail (10 + 30 * Second) 10 (exRow "J" "normal" 0 3).scanned "boom"
        (exClaimed 3)).2.2.eventChan.map (fun e => e.Type_) = ["failed"] ∧
    ((pickAndProcessJob exWorkerFail 10 { repo := exOne 3, eventChan := [] }).2.2.repo.row "J").map
        (fun r => (r.status, r.run_at, r.locked_by, r.locked_at))
      = some (StatusProcessing, 0, some "worker-0", some 10) ∧
    (pickAndProcessJob exWorkerFail 10 { repo := exOne 3, eventChan := [] }).2.2.eventChan.map
        (fun e => e.Type_) = ["started"] := by
  decide

/-- C3 (evaluation at the failing input): job `J` with `max_retries = 0` is claimed at instant
10 and its handler fails with `boom`.  The second insert of the attempt record, which carries
the id of the first, is rejected; `pickAndProcessJob` returns that error before it reaches
`handleJobFailure`: the stored job stays `processing` and locked by `worker-0`, and the only
event is `started`, no `failed`.  The same holds for every claimed job whose handler fails. -/
theorem failing_handler_leaves_job_processing :
    (pickAndProcessJob exWorkerFail 10 { repo := exOne 0, eventChan := [] }).2.1
      = some ("job processing failed: failed to update job attempt: " ++
          "duplicate key value violates unique constraint on id") ∧
    ((pickAndProcessJob exWorkerFail 10 { repo := exOne 0, eventChan := [] }).2.2.repo.row "J").map
        (fun r => (r.status, r.locked_by, r.locked_at))
      = some (StatusProcessing, some "worker-0", some 10) ∧
    (pickAndProcessJob exWorkerFail 10 { repo := exOne 0, eventChan := [] }).2.2.eventChan.map
        (fun e => e.Type_) = ["started"] ∧
    (∀ (w : Worker) (now : Int) (st : State) (job : Job) (repo1 : Store) (err : String),
      PickJob st.repo w.id w.config.VisibilityTimeout now = .ok (some job, repo1) →
      (w.jobHandler (now + w.config.VisibilityTimeout) job).err = some err →
      (∃ e, (pickAndProcessJob w now st).2.1 = some e) ∧
      (∃ r, (pickAndProcessJob w now st).2.2.repo.row job.ID = some r ∧
        r.status = StatusProcessing ∧ r.locked_by = some w.id) ∧
      (pickAndProcessJob w now st).2.2.eventChan = st.eventChan ++
        [{ Type_ := "started", JobID := job.ID, Queue := job.Queue, Timestamp := now,
           Payload := some job.Payload, Error := "" }]) := by
  refine ⟨by decide, by decide, by decide, ?_⟩
  intro w now st job repo1 err hpick _
  obtain ⟨h1, h2, h3⟩ := pickAndProcessJob_stuck w now st job repo1 hpick
  obtain ⟨r, _, hr1, _⟩ := row_PickJob st.repo repo1 w.id _ now job hpick
  refine ⟨h1, ⟨r.lock w.id now, ?_, rfl, rfl⟩, h3⟩
  unfold Store.row at hr1 ⊢
  rw [h2]
  exact hr1

/-- C4 (evaluation at the failing input): job `J` is claimed at instant 10 and its handler
succeeds.  The second insert of the attempt record, which carries the id of the first, is
rejected; `pickAndProcessJob` returns that error before it reaches the write of `completed`:
the stored job stays `processing` and locked by `worker-0`, and the only event is `started`,
no `succeeded`.  The same holds for every claimed job whose handler succeeds. -/
theorem succeeding_handler_leaves_job_processing :
    (pickAndProcessJob exWorkerOk 10 { repo := exOne 3, eventChan := [] }).2.1
      = some ("job processing failed: failed to update job attempt: " ++
          "duplicate key value violates unique constraint on id") ∧
    ((pickAndProcessJob exWorkerOk 10 { repo := exOne 3, eventChan := [] }).2.2.repo.row "J").map
        (fun r => (r.status, r.locked_by, r.locked_at))
      = some (StatusProcessing, some "worker-0", some 10) ∧
    (pickAndProcessJob exWorkerOk 10 { repo := exOne 3, eventChan := [] }).2.2.eventChan.map
        (fun e => e.Type_) = ["started"] ∧
    (∀ (w : Worker) (now : Int) (st : State) (job : Job) (repo1 : Store),
      PickJob st.repo w.id w.config.VisibilityTimeout now = .ok (some job, repo1) →
      (w.jobHandler (now + w.config.VisibilityTimeout) job).err = none →
      (∃ e, (pickAndProcessJob w now st).2.1 = some e) ∧
      (∃ r, (pickAndProcessJob w now st).2.2.repo.row job.ID = some r ∧
        r.status = StatusProcessing ∧ r.locked_by = some w.id) ∧
      (pickAndProcessJob w now st).2.2.eventChan = st.eventChan ++
        [{ Type_ := "started", JobID := job.ID, Queue := job.Queue, Timestamp := now,
           Payload := some job.Payload, Error := "" }]) := by
  refine ⟨by decide, by decide, by decide, ?_⟩
  intro w now st job repo1 hpick _
  obtain ⟨h1, h2, h3⟩ := pickAndProcessJob_stuck w now st job repo1 hpick
  obtain ⟨r, _, hr1, _⟩ := row_PickJob st.repo repo1 w.id _ now job hpick
  refine ⟨h1, ⟨r.lock w.id now, ?_, rfl, rfl⟩, h3⟩
  unfold Store.row at hr1 ⊢
  rw [h2]
  exact hr1

theorem eligible_iff (now : Int) (r : JobRow) :
    eligible now r = true ↔ r.status = StatusPending ∧ r.run_at ≤ now := by
  simp [eligible, StatusPending]

/-! ## Claiming -/

/-- C5: `PickJob` always returns; it returns a job iff some row is `pending` with
`run_at <= now`; the job returned is such a row, and no eligible row has a higher priority
(`high > normal > low`) or the same priority and an earlier `created_at`.  On the seed
A(low, 0), B(high, 1), C(normal, 2), D(high, 3) four successive claims return B, D, C, A. -/
theorem PickJob_selects (s : Store) (w : String) (t now : Int) :
    (∃ res, PickJob s w t now = .ok res) ∧
    ((∃ job repo1, PickJob s w t now = .ok (some job, repo1)) ↔
      ∃ r ∈ s.jobs, r.status = StatusPending ∧ r.run_at ≤ now) ∧
    (∀ job repo1, PickJob s w t now = .ok (some job, repo1) →
      ∃ r ∈ s.jobs, job = r.scanned ∧ r.status = StatusPending ∧ r.run_at ≤ now ∧
        ∀ x ∈ s.jobs, x.status = StatusPending → x.run_at ≤ now →
          priorityRank x.priority < priorityRank r.priority ∨
          (priorityRank x.priority = priorityRank r.priority ∧ r.created_at ≤ x.created_at)) ∧
    (priorityRank PriorityLow < priorityRank PriorityNormal ∧
      priorityRank PriorityNormal < priorityRank PriorityHigh) ∧
    (pickSeq exSeed [("worker-0", 10), ("worker-0", 10), ("worker-0", 10), ("worker-0", 10)]).1.map
      (Option.map (fun j => j.ID)) = [some "B", some "D", some "C", some "A"] := by
  refine ⟨?_, ⟨?_, ?_⟩, ?_, by decide, by decide⟩
  · rcases PickJob_cases s w t now with ⟨h0, _⟩ | ⟨r, _, _, _, h1⟩
    · exact ⟨_, h0⟩
    · exact ⟨_, h1⟩
  · rintro ⟨job, repo1, h⟩
    obtain ⟨r, hmem, hel, _, _, _⟩ := PickJob_some s w t now job repo1 h
    exact ⟨r, hmem, (eligible_iff now r).mp hel⟩
  · rintro ⟨r, hmem, hst, hrun⟩
    rcases PickJob_cases s w t now with ⟨_, hnone⟩ | ⟨r1, _, _, _, h1⟩
    · have := hnone r hmem
      rw [(eligible_iff now r).mpr ⟨hst, hrun⟩] at this
      exact absurd this (by decide)
    · exact ⟨_, _, h1⟩
  · intro job repo1 h
    obtain ⟨r, hmem, hel, hjob, hmin, _⟩ := PickJob_some s w t now job repo1 h
    obtain ⟨hst, hrun⟩ := (eligible_iff now r).mp hel
    refine ⟨r, hmem, hjob, hst, hrun, ?_⟩
    intro x hx hxs hxr
    have := hmin x hx ((eligible_iff now x).mpr ⟨hxs, hxr⟩)
    unfold claimOrder at this
    omega

theorem map_id_update (l : List JobRow) (i : String) (f : JobRow → JobRow)
    (hf : ∀ r, (f r).id = r.id) :
    (l.map (fun x => if x.id = i then f x else x)).map (fun r => r.id)
      = l.map (fun r => r.id) := by
  rw [List.map_map]
  apply List.map_congr_left
  intro x _
  by_cases h : x.id = i <;> simp [h, hf]

theorem filter_length_update (p : JobRow → Bool) (i : String) (f : JobRow → JobRow)
    (l : List JobRow) (hnd : (l.map (fun r => r.id)).Nodup) :
    (l.filter p).length ≤
      ((l.map (fun x => if x.id = i then f x else x)).filter p).length + 1 := by
  induction l with
  | nil => simp
  | cons a t ih =>
    rw [List.map_cons, List.nodup_cons] at hnd
    obtain ⟨hnot, hnd2⟩ := hnd
    by_cases h : a.id = i
    · have hid : t.map (fun x => if x.id = i then f x else x) = t := by
        conv_rhs => rw [← List.map_id t]
        apply List.map_congr_left
        intro x hx
        have : x.id ≠ i := by
          intro e
          apply hnot
          rw [h, ← e]
          exact List.mem_map_of_mem (fun r => r.id) hx
        simp [this]
      rw [List.map_cons, hid]
      have h1 : (List.filter p (a :: t)).length ≤ (List.filter p t).length + 1 := by
        rw [List.filter_cons]; split <;> simp
      have h2 : (List.filter p t).length ≤
          (List.filter p ((if a.id = i then f a else a) :: t)).length := by
        rw [List.filter_cons]
        by_cases hp : p (if a.id = i then f a else a) = true
        · rw [if_pos hp]; simp
        · rw [if_neg hp]
      omega
    · have := ih hnd2
      rw [List.map_cons, if_neg h, List.filter_cons, List.filter_cons]
      split <;> simp <;> omega

theorem PickJob_keeps_processing (s s1 : Store) (w : String) (t now : Int) (job : Option Job)
    (h : PickJob s w t now = .ok (job, s1)) (id : String)
    (hid : ∀ r ∈ s.jobs, r.id = id → r.status = StatusProcessing) :
    ∀ r ∈ s1.jobs, r.id = id → r.status = StatusProcessing := by
  rcases PickJob_cases s w t now with ⟨h0, _⟩ | ⟨r0, _, _, _, h1⟩
  · rw [h0] at h
    simp only [Except.ok.injEq, Prod.mk.injEq] at h
    rw [← h.2]; exact hid
  · rw [h1] at h
    simp only [Except.ok.injEq, Prod.mk.injEq] at h
    rw [← h.2]
    intro r hr hrid
    simp only [List.mem_map] at hr
    obtain ⟨x, hx, hxr⟩ := hr
    by_cases hc : x.id = r0.id
    · rw [if_pos hc] at hxr; rw [← hxr]; rfl
    · rw [if_neg hc] at hxr; subst hxr; exact hid x hx hrid

theorem PickJob_locks (s s1 : Store) (w : String) (t now : Int) (job : Job)
    (h : PickJob s w t now = .ok (some job, s1)) :
    (∃ r ∈ s1.jobs, r.id = job.ID) ∧
    ∀ r ∈ s1.jobs, r.id = job.ID →
      r.status = StatusProcessing ∧ r.locked_by = some w ∧ r.locked_at = some now := by
  obtain ⟨r0, hmem, _, hjob, _, hrepo⟩ := PickJob_some s w t now job s1 h
  have hid : job.ID = r0.id := by rw [hjob]; rfl
  rw [hrepo, hid]
  constructor
  · refine ⟨r0.lock w now, ?_, rfl⟩
    simp only [List.mem_map]
    exact ⟨r0, hmem, by simp⟩
  · intro r hr hrid
    simp only [List.mem_map] at hr
    obtain ⟨x, _, hxr⟩ := hr
    by_cases hc : x.id = r0.id
    · rw [if_pos hc] at hxr; rw [← hxr]; exact ⟨rfl, rfl, rfl⟩
    · rw [if_neg hc] at hxr; subst hxr; exact absurd hrid hc

theorem PickJob_not_processing (s s1 : Store) (w : String) (t now : Int) (job : Job)
    (h : PickJob s w t now = .ok (some job, s1)) (id : String)
    (hid : ∀ r ∈ s.jobs, r.id = id → r.status = StatusProcessing) : job.ID ≠ id := by
  obtain ⟨r0, hmem, hel, hjob, _, _⟩ := PickJob_some s w t now job s1 h
  intro e
  have h1 : r0.status = StatusProcessing := hid r0 hmem (by rw [← e, hjob]; rfl)
  have h2 := ((eligible_iff now r0).mp hel).1
  rw [h1] at h2
  exact absurd h2 (by decide)

theorem PickJob_wf (s s1 : Store) (w : String) (t now : Int) (job : Option Job)
    (h : PickJob s w t now = .ok (job, s1)) (hwf : s.wf) : s1.wf := by
  rcases PickJob_cases s w t now with ⟨h0, _⟩ | ⟨r0, _, _, _, h1⟩
  · rw [h0] at h
    simp only [Except.ok.injEq, Prod.mk.injEq] at h
    rw [← h.2]; exact hwf
  · rw [h1] at h
    simp only [Except.ok.injEq, Prod.mk.injEq] at h
    rw [← h.2]
    unfold Store.wf at hwf ⊢
    simp only
    rw [map_id_update _ _ _ (lock_id w now)]
    exact hwf

theorem pickSeq_cons (s : Store) (w : String) (now : Int) (rest : List (String × Int)) :
    ∃ job s1, PickJob s w 0 now = .ok (job, s1) ∧
      pickSeq s ((w, now) :: rest) = ((pickSeq s1 rest).1.cons job, (pickSeq s1 rest).2) := by
  rcases PickJob_cases s w 0 now with ⟨h0, _⟩ | ⟨r0, _, _, _, h1⟩
  · exact ⟨_, _, h0, by simp only [pickSeq, h0]⟩
  · exact ⟨_, _, h1, by simp only [pickSeq, h1]⟩

theorem pickSeq_fresh (calls : List (String × Int)) :
    ∀ (s : Store) (L : List String),
      (∀ id ∈ L, ∀ r ∈ s.jobs, r.id = id → r.status = StatusProcessing) →
      ((pickSeq s calls).1.filterMap (Option.map (fun j => j.ID))).Nodup ∧
      ∀ id ∈ (pickSeq s calls).1.filterMap (Option.map (fun j => j.ID)), id ∉ L := by
  induction calls with
  | nil => intro s L _; simp [pickSeq]
  | cons c rest ih =>
    intro s L hL
    obtain ⟨w, now⟩ := c
    obtain ⟨job, s1, hpick, heq⟩ := pickSeq_cons s w now rest
    rw [heq]
    cases job with
    | none =>
      have hL1 : ∀ id ∈ L, ∀ r ∈ s1.jobs, r.id = id → r.status = StatusProcessing :=
        fun id hid => PickJob_keeps_processing s s1 w 0 now none hpick id (hL id hid)
      simpa using ih s1 L hL1
    | some j =>
      have hL1 : ∀ id ∈ j.ID :: L, ∀ r ∈ s1.jobs, r.id = id → r.status = StatusProcessing := by
        intro id hid
        rcases List.mem_cons.mp hid with e | hid2
        · subst e
          exact fun r hr hrid => ((PickJob_locks s s1 w 0 now j hpick).2 r hr hrid).1
        · exact PickJob_keeps_processing s s1 w 0 now (some j) hpick id (hL id hid2)
      obtain ⟨hnd, hfresh⟩ := ih s1 (j.ID :: L) hL1
      simp only [List.filterMap_cons, Option.map_some', List.nodup_cons, List.mem_cons]
      refine ⟨⟨fun hin => hfresh _ hin (List.mem_cons_self _ _), hnd⟩, ?_⟩
      rintro id (e | hin)
      · subst e
        intro hinL
        exact PickJob_not_processing s s1 w 0 now j hpick _ (hL _ hinL) rfl
      · exact fun hinL => hfresh id hin (List.mem_cons_of_mem _ hinL)

theorem pickSeq_all_some (calls : List (String × Int)) (t0 : Int) :
    ∀ (s : Store), s.wf → calls.length ≤ (s.jobs.filter (eligible t0)).length →
      (∀ c ∈ calls, t0 ≤ c.2) → ∀ j ∈ (pickSeq s calls).1, j.isSome = true := by
  induction calls with
  | nil => intro s _ _ _ j hj; simp [pickSeq] at hj
  | cons c rest ih =>
    intro s hwf hlen htime
    obtain ⟨w, now⟩ := c
    have hnow : t0 ≤ now := htime (w, now) (List.mem_cons_self _ _)
    rcases PickJob_cases s w 0 now with ⟨_, hnone⟩ | ⟨r0, _, _, _, h1⟩
    · exfalso
      have hnil : s.jobs.filter (eligible t0) = [] := by
        rw [List.filter_eq_nil_iff]
        intro x hx hel
        obtain ⟨h1, h2⟩ := (eligible_iff t0 x).mp hel
        have h3 := (eligible_iff now x).mpr ⟨h1, le_trans h2 hnow⟩
        rw [hnone x hx] at h3
        exact absurd h3 (by decide)
      rw [hnil] at hlen
      simp at hlen
    · simp only [pickSeq, h1]
      intro j hj
      rcases List.mem_cons.mp hj with e | hj2
      · rw [e]; rfl
      · refine ih _ (PickJob_wf s _ w 0 now _ h1 hwf) ?_
          (fun c hc => htime c (List.mem_cons_of_mem _ hc)) j hj2
        have := filter_length_update (eligible t0) r0.id (fun x => x.lock w now) s.jobs hwf
        simp only [List.length_cons] at hlen
        simp only at this ⊢
        omega

theorem pickSeq_wf (calls : List (String × Int)) :
    ∀ (s : Store), s.wf → (pickSeq s calls).2.wf := by
  induction calls with
  | nil => intro s h; exact h
  | cons c rest ih =>
    intro s hwf
    obtain ⟨w, now⟩ := c
    obtain ⟨job, s1, hpick, heq⟩ := pickSeq_cons s w now rest
    rw [heq]
    exact ih s1 (PickJob_wf s s1 w 0 now job hpick hwf)

theorem holds_unique (s : Store) (hwf : s.wf) (w1 w2 id : String)
    (h1 : s.holds w1 id) (h2 : s.holds w2 id) : w1 = w2 := by
  obtain ⟨r1, hr1, hid1, _, hl1⟩ := h1
  obtain ⟨r2, hr2, hid2, _, hl2⟩ := h2
  have : r1 = r2 := List.inj_on_of_nodup_map hwf hr1 hr2 (by rw [hid1, hid2])
  subst this
  rw [hl1] at hl2
  exact Option.some.inj hl2

/-- C6: with each `PickJob` one atomic step, for any sequence `calls` of claims by any workers:
a job returned by `PickJob` has a row in the store, and every row of its id is `processing`,
`locked_by` the caller and `locked_at` the instant of the call; a job whose rows are
`processing` is returned by no `PickJob`; the jobs returned along `calls` are pairwise
distinct; when the ids are unique and at least as many rows are eligible at `t0` as there are
calls, all made at `t0` or later, every call returns a job; and with unique ids no two workers
hold the same job in the store reached. -/
theorem pickSeq_exclusive (s : Store) (calls : List (String × Int)) :
    (∀ w t now job s1, PickJob s w t now = .ok (some job, s1) →
      (∃ r ∈ s1.jobs, r.id = job.ID) ∧
      ∀ r ∈ s1.jobs, r.id = job.ID →
        r.status = StatusProcessing ∧ r.locked_by = some w ∧ r.locked_at = some now) ∧
    (∀ id, (∀ r ∈ s.jobs, r.id = id → r.status = StatusProcessing) →
      ∀ w t now job s1, PickJob s w t now = .ok (some job, s1) → job.ID ≠ id) ∧
    ((pickSeq s calls).1.filterMap (Option.map (fun j => j.ID))).Nodup ∧
    (∀ t0, s.wf → calls.length ≤ (s.jobs.filter (eligible t0)).length →
      (∀ c ∈ calls, t0 ≤ c.2) → ∀ j ∈ (pickSeq s calls).1, j.isSome = true) ∧
    (s.wf → ∀ w1 w2 id, (pickSeq s calls).2.holds w1 id → (pickSeq s calls).2.holds w2 id →
      w1 = w2) := by
  refine ⟨?_, ?_, ?_, ?_, ?_⟩
  · intro w t now job s1 h
    exact PickJob_locks s s1 w t now job h
  · intro id hid w t now job s1 h
    exact PickJob_not_processing s s1 w t now job h id hid
  · exact (pickSeq_fresh calls s [] (by simp)).1
  · intro t0 hwf hlen htime
    exact pickSeq_all_some calls t0 s hwf hlen htime
  · intro hwf w1 w2 id h1 h2
    exact holds_unique _ (pickSeq_wf calls s hwf) w1 w2 id h1 h2

/-- C6 (witness): four claims by two workers on the four eligible jobs of the seed; the last
of them returns job `A`. -/
theorem pickSeq_exclusive_witness :
    exSeed.wf ∧
    some (exRow "A" "low" 0 3).scanned ∈ (pickSeq exSeed
        [("worker-0", 10), ("worker-1", 10), ("worker-0", 11), ("worker-1", 12)]).1 ∧
    (some (exRow "A" "low" 0 3).scanned).isSome = true :=
  ⟨by decide, by decide,
    (pickSeq_exclusive exSeed
      [("worker-0", 10), ("worker-1", 10), ("worker-0", 11), ("worker-1", 12)]).2.2.2.1 0
      (by decide) (by decide) (by decide) (some (exRow "A" "low" 0 3).scanned) (by decide)⟩

theorem lockInv_map (l : List JobRow) (i : String) (f : JobRow → JobRow)
    (hl : ∀ r ∈ l, (r.status = StatusProcessing ↔ r.locked_by ≠ none ∧ r.locked_at ≠ none))
    (hf : ∀ r, ((f r).status = StatusProcessing ↔ (f r).locked_by ≠ none ∧ (f r).locked_at ≠ none)) :
    ∀ r ∈ l.map (fun x => if x.id = i then f x else x),
      (r.status = StatusProcessing ↔ r.locked_by ≠ none ∧ r.locked_at ≠ none) := by
  intro r hr
  simp only [List.mem_map] at hr
  obtain ⟨x, hx, hxr⟩ := hr
  by_cases hc : x.id = i
  · rw [if_pos hc] at hxr; rw [← hxr]; exact hf x
  · rw [if_neg hc] at hxr; rw [← hxr]; exact hl x hx

theorem lockInv_setStatus (status : JobStatus) (now : Int) (r : JobRow)
    (h : status ≠ StatusProcessing) :
    ((r.setStatus status now).status = StatusProcessing ↔
      (r.setStatus status now).locked_by ≠ none ∧ (r.setStatus status now).locked_at ≠ none) := by
  constructor
  · intro e; exact absurd e h
  · intro e; exact absurd rfl e.1

/-- C8: in every store reached from the empty tables by `CreateJob`, `PickJob`,
`UpdateJobStatus` with `completed`, `failed`, `pending` or `cancelled`, `UpdateJobForRetry`
(and `CreateJobAttempt`), each job row has `status = processing` iff `locked_by` and
`locked_at` are both non-null. -/
theorem lock_invariant (s : Store) (h : Reachable s) :
    ∀ r ∈ s.jobs, (r.status = StatusProcessing ↔ r.locked_by ≠ none ∧ r.locked_at ≠ none) := by
  induction h with
  | empty => intro r hr; simp at hr
  | createJob s s1 job job1 now _ hc ih =>
    unfold CreateJob at hc
    cases hv : insertViolation s.jobs job with
    | some e => rw [hv] at hc; simp at hc
    | none =>
      rw [hv] at hc
      simp only [Except.ok.injEq, Prod.mk.injEq] at hc
      rw [← hc.2]
      intro r hr
      simp only [List.mem_append, List.mem_singleton] at hr
      rcases hr with hr | hr
      · exact ih r hr
      · subst hr
        constructor
        · intro e
          have h2 : ("pending" : String) ≠ StatusProcessing := by decide
          exact absurd e h2
        · intro e; exact absurd rfl e.1
  | pickJob s s1 w t now job _ hp ih =>
    rcases PickJob_cases s w t now with ⟨h0, _⟩ | ⟨r0, _, _, _, h1⟩
    · rw [h0] at hp
      simp only [Except.ok.injEq, Prod.mk.injEq] at hp
      rw [← hp.2]; exact ih
    · rw [h1] at hp
      simp only [Except.ok.injEq, Prod.mk.injEq] at hp
      rw [← hp.2]
      apply lockInv_map _ _ _ ih
      intro r
      exact ⟨fun _ => ⟨by simp [JobRow.lock], by simp [JobRow.lock]⟩, fun _ => rfl⟩
  | updateJobStatus s s1 jobID status now _ hst hu ih =>
    unfold UpdateJobStatus at hu
    simp only [Except.ok.injEq] at hu
    rw [← hu]
    apply lockInv_map _ _ _ ih
    intro r
    apply lockInv_setStatus
    rcases hst with e | e | e | e <;> rw [e] <;> decide
  | updateJobForRetry s s1 jobID runAt now _ hu ih =>
    unfold UpdateJobForRetry at hu
    simp only [Except.ok.injEq] at hu
    rw [← hu]
    apply lockInv_map _ _ _ ih
    intro r
    constructor
    · intro e
      have h2 : ("pending" : String) ≠ StatusProcessing := by decide
      exact absurd e h2
    · intro e; exact absurd rfl e.1
  | createJobAttempt s s1 attempt _ hc ih =>
    rw [CreateJobAttempt_ok s s1 attempt hc]; exact ih

/-- C8 (witness): a job is created at instant 0 and claimed by `worker-0` at instant 5; its
row is `processing` and carries both lock columns. -/
theorem lock_invariant_witness :
    (((insertedRow (enqueueDefaults (exJob "J" "k")) 0).lock "worker-0" 5).status
        = StatusProcessing ↔
      ((insertedRow (enqueueDefaults (exJob "J" "k")) 0).lock "worker-0" 5).locked_by ≠ none ∧
      ((insertedRow (enqueueDefaults (exJob "J" "k")) 0).lock "worker-0" 5).locked_at ≠ none) :=
  lock_invariant { jobs := [(insertedRow (enqueueDefaults (exJob "J" "k")) 0).lock "worker-0" 5],
                   job_attempts := [] }
    (Reachable.pickJob
      { jobs := [insertedRow (enqueueDefaults (exJob "J" "k")) 0], job_attempts := [] } _
      "worker-0" 0 5 (some (insertedRow (enqueueDefaults (exJob "J" "k")) 0).scanned)
      (Reachable.createJob { jobs := [], job_attempts := [] } _ (enqueueDefaults (exJob "J" "k"))
        { enqueueDefaults (exJob "J" "k") with CreatedAt := 0, UpdatedAt := 0 } 0
        Reachable.empty rfl)
      rfl)
    ((insertedRow (enqueueDefaults (exJob "J" "k")) 0).lock "worker-0" 5)
    (List.mem_singleton.mpr rfl)

/-! ## Enqueue -/

/-- C9: the job that `EnqueueJob` hands to `CreateJob` is `enqueueDefaults job`: its status is
`pending` if the status was empty, its priority `normal` if the priority was empty, its queue
`default` if the queue was empty, each left as given otherwise, and every other field is
unchanged.  When the insert succeeds, `EnqueueJob` returns no error, the store is the one
`CreateJob` produced for that job, and one event is sent: `created`, with the job's id and the
defaulted queue. -/
theorem EnqueueJob_defaults (now : Int) (job : Job) (st : State) :
    ((enqueueDefaults job).Status = if job.Status = "" then StatusPending else job.Status) ∧
    ((enqueueDefaults job).Priority = if job.Priority = "" then PriorityNormal
      else job.Priority) ∧
    ((enqueueDefaults job).Queue = if job.Queue = "" then "default" else job.Queue) ∧
    ((enqueueDefaults job).ID = job.ID ∧ (enqueueDefaults job).Payload = job.Payload ∧
      (enqueueDefaults job).MaxRetries = job.MaxRetries ∧
      (enqueueDefaults job).RunAt = job.RunAt ∧
      (enqueueDefaults job).IdempotencyKey = job.IdempotencyKey ∧
      (enqueueDefaults job).CreatedAt = job.CreatedAt ∧
      (enqueueDefaults job).UpdatedAt = job.UpdatedAt ∧
      (enqueueDefaults job).LockedBy = job.LockedBy ∧
      (enqueueDefaults job).LockedAt = job.LockedAt) ∧
    (∀ err, CreateJob st.repo (enqueueDefaults job) now = .error err →
      EnqueueJob now job st = (enqueueDefaults job, some ("failed to create job: " ++ err), st)) ∧
    (∀ job1 repo1, CreateJob st.repo (enqueueDefaults job) now = .ok (job1, repo1) →
      (EnqueueJob now job st).2.1 = none ∧
      (EnqueueJob now job st).2.2.repo = repo1 ∧
      repo1.jobs = st.repo.jobs ++ [insertedRow (enqueueDefaults job) now] ∧
      (EnqueueJob now job st).2.2.eventChan = st.eventChan ++
        [{ Type_ := "created", JobID := job.ID, Queue := (enqueueDefaults job).Queue,
           Timestamp := now, Payload := some job.Payload, Error := "" }]) := by
  have hfields : (enqueueDefaults job).ID = job.ID ∧ (enqueueDefaults job).Payload = job.Payload ∧
      (enqueueDefaults job).MaxRetries = job.MaxRetries ∧
      (enqueueDefaults job).RunAt = job.RunAt ∧
      (enqueueDefaults job).IdempotencyKey = job.IdempotencyKey ∧
      (enqueueDefaults job).CreatedAt = job.CreatedAt ∧
      (enqueueDefaults job).UpdatedAt = job.UpdatedAt ∧
      (enqueueDefaults job).LockedBy = job.LockedBy ∧
      (enqueueDefaults job).LockedAt = job.LockedAt := by
    unfold enqueueDefaults
    by_cases h1 : job.Status = "" <;> by_cases h2 : job.Priority = "" <;>
      by_cases h3 : job.Queue = "" <;> simp [h1, h2, h3]
  refine ⟨?_, ?_, ?_, hfields, ?_, ?_⟩
  · unfold enqueueDefaults
    by_cases h1 : job.Status = "" <;> by_cases h2 : job.Priority = "" <;>
      by_cases h3 : job.Queue = "" <;> simp [h1, h2, h3]
  · unfold enqueueDefaults
    by_cases h1 : job.Status = "" <;> by_cases h2 : job.Priority = "" <;>
      by_cases h3 : job.Queue = "" <;> simp [h1, h2, h3]
  · unfold enqueueDefaults
    by_cases h1 : job.Status = "" <;> by_cases h2 : job.Priority = "" <;>
      by_cases h3 : job.Queue = "" <;> simp [h1, h2, h3]
  · intro err h
    simp only [EnqueueJob, h]
  · intro job1 repo1 h
    have hc := h
    unfold CreateJob at hc
    cases hv : insertViolation st.repo.jobs (enqueueDefaults job) with
    | some e => rw [hv] at hc; simp at hc
    | none =>
      rw [hv] at hc
      simp only [Except.ok.injEq, Prod.mk.injEq] at hc
      obtain ⟨hj, hr⟩ := hc
      simp only [EnqueueJob, h, State.send]
      refine ⟨trivial, trivial, by rw [← hr], ?_⟩
      rw [← hj]
      simp only [hfields.1, hfields.2.1]

/-- C9 (witness): a job with empty status, priority and queue enqueued on the empty store. -/
theorem EnqueueJob_defaults_witness :
    (EnqueueJob 7 (exJob "J" "k") { repo := { jobs := [], job_attempts := [] },
                                    eventChan := [] }).2.2.eventChan =
      [{ Type_ := "created", JobID := "J", Queue := "default", Timestamp := 7,
         Payload := some "x", Error := "" }] :=
  ((EnqueueJob_defaults 7 (exJob "J" "k")
      { repo := { jobs := [], job_attempts := [] }, eventChan := [] }).2.2.2.2.2
    { enqueueDefaults (exJob "J" "k") with CreatedAt := 7, UpdatedAt := 7 }
    { jobs := [insertedRow (enqueueDefaults (exJob "J" "k")) 7], job_attempts := [] }
    rfl).2.2.2

/-- C10 (counterexample): the store holds a job with idempotency key `k`; enqueuing job `J2`
with the same key is rejected by `CreateJob`, and `EnqueueJob` returns that error, not
success. -/
theorem EnqueueJob_duplicate_key_fails :
    CreateJob exKeyed (enqueueDefaults (exJob "J2" "k")) 5
      = .error "duplicate key value violates unique constraint on idempotency_key" ∧
    (EnqueueJob 5 (exJob "J2" "k") { repo := exKeyed, eventChan := [] }).2.1
      = some ("failed to create job: " ++
          "duplicate key value violates unique constraint on idempotency_key") ∧
    (EnqueueJob 5 (exJob "J2" "k") { repo := exKeyed, eventChan := [] }).1.ID = "J2" := by
  refine ⟨rfl, by decide, by decide⟩

/-- C10 (amended): when `CreateJob` rejects the insert (as it does for a duplicate idempotency
key), `EnqueueJob` returns the error `failed to create job: ...` wrapping the store's error;
the store is unchanged, so no job row is created, no event is sent, and the job keeps its own
id. -/
theorem EnqueueJob_rejected (now : Int) (job : Job) (st : State) (err : String)
    (h : CreateJob st.repo (enqueueDefaults job) now = .error err) :
    (EnqueueJob now job st).2.1 = some ("failed to create job: " ++ err) ∧
    (EnqueueJob now job st).2.2.repo = st.repo ∧
    (EnqueueJob now job st).2.2.eventChan = st.eventChan ∧
    (EnqueueJob now job st).1.ID = job.ID := by
  simp only [EnqueueJob, h]
  refine ⟨trivial, trivial, trivial, ?_⟩
  unfold enqueueDefaults
  by_cases h1 : job.Status = "" <;> by_cases h2 : job.Priority = "" <;>
    by_cases h3 : job.Queue = "" <;> simp [h1, h2, h3]

/-- C10 (witness): the duplicate of key `k` leaves the store with its single row. -/
theorem EnqueueJob_rejected_witness :
    (EnqueueJob 5 (exJob "J2" "k") { repo := exKeyed, eventChan := [] }).2.2.repo = exKeyed :=
  (EnqueueJob_rejected 5 (exJob "J2" "k") { repo := exKeyed, eventChan := [] }
    "duplicate key value violates unique constraint on idempotency_key" rfl).2.1

/-! ## The event bus -/

theorem trySend_open (ch : Chan) (msg : String) (cap : Nat) (h : ch.closed = false) :
    ch.trySend msg cap =
      .ok (if ch.buf.length < cap then { ch with buf := ch.buf ++ [msg] } else ch) := by
  unfold Chan.trySend
  rw [if_neg (by simp [h])]
  split <;> rfl

theorem broadcastTo_spec (msg : String) (clients : List Nat) :
    ∀ (send : Nat → Chan), clients.Nodup → (∀ c ∈ clients, (send c).closed = false) →
      ∃ send1, broadcastTo msg clients send = .ok send1 ∧
        ∀ c, send1 c =
          if c ∈ clients ∧ (send c).buf.length < sendCapacity then
            { send c with buf := (send c).buf ++ [msg] }
          else send c := by
  induction clients with
  | nil => intro send _ _; exact ⟨send, rfl, by simp⟩
  | cons a rest ih =>
    intro send hnd hopen
    rw [List.nodup_cons] at hnd
    obtain ⟨hnot, hnd2⟩ := hnd
    have ha : (send a).closed = false := hopen a (List.mem_cons_self _ _)
    have hopen2 : ∀ c ∈ rest, (Function.update send a
        (if (send a).buf.length < sendCapacity then
          { send a with buf := (send a).buf ++ [msg] } else send a) c).closed = false := by
      intro c hc
      have hne : c ≠ a := fun e => hnot (e ▸ hc)
      rw [Function.update_noteq hne]
      exact hopen c (List.mem_cons_of_mem _ hc)
    obtain ⟨send1, hrun, hspec⟩ := ih _ hnd2 hopen2
    refine ⟨send1, ?_, ?_⟩
    · simp only [broadcastTo, trySend_open _ _ _ ha]
      exact hrun
    · intro c
      rw [hspec c]
      by_cases hca : c = a
      · subst hca
        simp [hnot]
      · rw [Function.update_noteq hca]
        simp [hca]

/-- C11: on a set of subscribers with open queues of capacity 256, `broadcastEvent` returns
(it waits on no queue) and leaves the subscriber set and the connections as they were; a
subscriber whose queue holds fewer than 256 messages gets the event's JSON appended, a full
queue is unchanged; and what a subscriber's queue becomes depends on its own queue only: in any
other state where it has the same queue, whatever the other subscribers are, the broadcast
leaves it the same queue. -/
theorem broadcastEvent_frame (toJSON : JobEvent → String) (s : WebSocketServer)
    (event : JobEvent) (hset : s.clients.Nodup)
    (hopen : ∀ c ∈ s.clients, (s.send c).closed = false) :
    sendCapacity = 256 ∧
    ∃ s1, broadcastEvent toJSON s event = .ok s1 ∧ s1.clients = s.clients ∧ s1.conn = s.conn ∧
      (∀ c ∈ s.clients, (s.send c).buf.length < 256 →
        s1.send c = { s.send c with buf := (s.send c).buf ++ [toJSON event] }) ∧
      (∀ c ∈ s.clients, ¬ (s.send c).buf.length < 256 → s1.send c = s.send c) ∧
      (∀ c, c ∉ s.clients → s1.send c = s.send c) ∧
      (∀ (s2 : WebSocketServer) (c : Nat), s2.clients.Nodup →
        (∀ x ∈ s2.clients, (s2.send x).closed = false) →
        c ∈ s.clients → c ∈ s2.clients → s2.send c = s.send c →
        ∃ s3, broadcastEvent toJSON s2 event = .ok s3 ∧ s3.send c = s1.send c) := by
  refine ⟨rfl, ?_⟩
  obtain ⟨send1, hrun, hspec⟩ := broadcastTo_spec (toJSON event) s.clients s.send hset hopen
  refine ⟨{ s with send := send1 }, by simp only [broadcastEvent, hrun], rfl, rfl, ?_, ?_, ?_, ?_⟩
  · intro c hc hlt
    show send1 c = _
    rw [hspec c, if_pos ⟨hc, hlt⟩]
  · intro c hc hlt
    show send1 c = _
    rw [hspec c, if_neg (fun h => hlt h.2)]
  · intro c hc
    show send1 c = _
    rw [hspec c, if_neg (fun h => hc h.1)]
  · intro s2 c hset2 hopen2 hc hc2 heq
    obtain ⟨send3, hrun3, hspec3⟩ :=
      broadcastTo_spec (toJSON event) s2.clients s2.send hset2 hopen2
    refine ⟨{ s2 with send := send3 }, by simp only [broadcastEvent, hrun3], ?_⟩
    show send3 c = send1 c
    rw [hspec3 c, hspec c, heq]
    simp [hc, hc2]

theorem exBus_full : (exBus.send 0).buf.length = 256 :=
  List.length_replicate 256 "m"

/-- C11 (witness): subscriber `0` is full and keeps its queue, subscriber `1` gets the event. -/
theorem broadcastEvent_frame_witness :
    ∃ s1, broadcastEvent exToJSON exBus (exEvent "created") = .ok s1 ∧
      s1.send 0 = exBus.send 0 ∧ s1.send 1 = { buf := ["created:J"], closed := false } := by
  obtain ⟨s1, h1, _, _, h4, h5, _⟩ :=
    (broadcastEvent_frame exToJSON exBus (exEvent "created") (by decide) (by decide)).2
  exact ⟨s1, h1, h5 0 (by decide) (by rw [exBus_full]; decide), h4 1 (by decide) (by decide)⟩

theorem removeClient_not_mem (s : WebSocketServer) (client : Nat) (h : client ∉ s.clients) :
    removeClient s client = .ok s := by
  unfold removeClient
  rw [if_neg h]

/-- One operation other than `Shutdown` on a well-formed bus does not panic and keeps the bus
well formed; a subscriber that is not removed stays, and the messages it was handed (written to
its connection or waiting in its queue) grow by a sublist of the events broadcast. -/
theorem BusOp.apply_wf (toJSON : JobEvent → String) (s : WebSocketServer) (op : BusOp)
    (hwf : s.wf) (hop : op ≠ .shutdown) :
    ∃ s1, op.apply toJSON s = .ok s1 ∧ s1.wf ∧
      ∀ c ∈ s.clients, op ≠ .remove c →
        c ∈ s1.clients ∧
        ∃ placed, placed.Sublist ((broadcasts [op]).map toJSON) ∧
          s1.conn c ++ (s1.send c).buf = s.conn c ++ (s.send c).buf ++ placed := by
  obtain ⟨hnd, hall⟩ := hwf
  cases op with
  | shutdown => exact absurd rfl hop
  | broadcast event =>
    obtain ⟨send1, hrun, hspec⟩ := broadcastTo_spec (toJSON event) s.clients s.send hnd
      (fun c hc => (hall c hc).1)
    refine ⟨{ s with send := send1 }, by simp only [BusOp.apply, broadcastEvent, hrun], ⟨hnd, ?_⟩, ?_⟩
    · intro c hc
      obtain ⟨h1, h2, h3⟩ := hall c hc
      show (send1 c).closed = false ∧ (send1 c).buf.length ≤ sendCapacity ∧ c < s.next
      rw [hspec c]
      by_cases hlt : (s.send c).buf.length < sendCapacity
      · rw [if_pos ⟨hc, hlt⟩]
        refine ⟨h1, ?_, h3⟩
        simp only [List.length_append, List.length_singleton]
        omega
      · rw [if_neg (fun h => hlt h.2)]
        exact ⟨h1, h2, h3⟩
    · intro c hc _
      refine ⟨hc, ?_⟩
      show ∃ placed, placed.Sublist ((broadcasts [BusOp.broadcast event]).map toJSON) ∧
        s.conn c ++ (send1 c).buf = s.conn c ++ (s.send c).buf ++ placed
      rw [hspec c]
      by_cases hlt : (s.send c).buf.length < sendCapacity
      · rw [if_pos ⟨hc, hlt⟩]
        exact ⟨[toJSON event], by simp [broadcasts], by simp⟩
      · rw [if_neg (fun h => hlt h.2)]
        exact ⟨[], by simp, by simp⟩
  | write client =>
    cases hbuf : (s.send client).buf with
    | nil =>
      have hrun : writePump s client = .ok s := by
        unfold writePump
        rw [hbuf]
        by_cases hcl : (s.send client).closed = true
        · simp only [hcl, if_true]
          apply removeClient_not_mem
          intro hmem
          have := (hall client hmem).1
          rw [hcl] at this
          exact absurd this (by decide)
        · simp only [hcl]
          rfl
      refine ⟨s, hrun, ⟨hnd, hall⟩, ?_⟩
      intro c hc _
      exact ⟨hc, [], by simp, by simp⟩
    | cons msg rest =>
      refine ⟨{ s with send := Function.update s.send client { s.send client with buf := rest },
                       conn := Function.update s.conn client (s.conn client ++ [msg]) },
        by simp only [BusOp.apply, writePump, hbuf], ⟨hnd, ?_⟩, ?_⟩
      · intro c hc
        obtain ⟨h1, h2, h3⟩ := hall c hc
        by_cases hcc : c = client
        · subst hcc
          simp only [Function.update_same]
          refine ⟨h1, ?_, h3⟩
          rw [hbuf] at h2
          simp only [List.length_cons] at h2
          omega
        · simp only [Function.update_noteq hcc]
          exact ⟨h1, h2, h3⟩
      · intro c hc _
        refine ⟨hc, [], by simp, ?_⟩
        by_cases hcc : c = client
        · subst hcc
          simp only [Function.update_same, hbuf]
          simp
        · simp only [Function.update_noteq hcc]
          simp
  | attach =>
    have hfresh : s.next ∉ s.clients := fun h => absurd (hall s.next h).2.2 (lt_irrefl _)
    refine ⟨HandleWebSocket s true, rfl, ⟨?_, ?_⟩, ?_⟩
    · simp only [HandleWebSocket, if_true]
      rw [List.nodup_append]
      refine ⟨hnd, List.nodup_singleton _, ?_⟩
      intro a ha hb
      rw [List.mem_singleton] at hb
      exact hfresh (hb ▸ ha)
    · intro c hc
      simp only [HandleWebSocket, if_true, List.mem_append, List.mem_singleton] at hc ⊢
      rcases hc with hc | hc
      · have hne : c ≠ s.next := fun e => hfresh (e ▸ hc)
        obtain ⟨h1, h2, h3⟩ := hall c hc
        rw [Function.update_noteq hne]
        exact ⟨h1, h2, by omega⟩
      · subst hc
        rw [Function.update_same]
        exact ⟨rfl, by simp, by omega⟩
    · intro c hc _
      have hne : c ≠ s.next := fun e => hfresh (e ▸ hc)
      simp only [HandleWebSocket, if_true, List.mem_append, List.mem_singleton]
      refine ⟨Or.inl hc, [], by simp, ?_⟩
      rw [Function.update_noteq hne, Function.update_noteq hne]
      simp
  | remove client =>
    by_cases hmem : client ∈ s.clients
    · have hopen := (hall client hmem).1
      have hrun : removeClient s client =
          .ok { s with send := Function.update s.send client
                          { s.send client with closed := true },
                       clients := s.clients.filter (fun c => decide (c ≠ client)) } := by
        unfold removeClient Chan.close
        rw [if_pos hmem]
        simp [hopen]
      refine ⟨_, hrun, ⟨hnd.filter _, ?_⟩, ?_⟩
      · intro c hc
        simp only [List.mem_filter, decide_eq_true_eq] at hc
        simp only [Function.update_noteq hc.2]
        exact hall c hc.1
      · intro c hc hne
        have hcc : c ≠ client := fun e => hne (by rw [e])
        refine ⟨by simp [List.mem_filter, hc, hcc], [], by simp, ?_⟩
        simp only [Function.update_noteq hcc]
        simp
    · refine ⟨s, removeClient_not_mem s client hmem, ⟨hnd, hall⟩, ?_⟩
      intro c hc _
      exact ⟨hc, [], by simp, by simp⟩

theorem broadcasts_cons (op : BusOp) (rest : List BusOp) :
    broadcasts (op :: rest) = broadcasts [op] ++ broadcasts rest := by
  cases op <;> rfl

theorem runBus_placed (toJSON : JobEvent → String) (ops : List BusOp) :
    ∀ (s : WebSocketServer) (c : Nat), s.wf → c ∈ s.clients → BusOp.shutdown ∉ ops →
      BusOp.remove c ∉ ops →
      ∃ s1, runBus toJSON s ops = .ok s1 ∧ s1.wf ∧ c ∈ s1.clients ∧
        ∃ placed, placed.Sublist ((broadcasts ops).map toJSON) ∧
          s1.conn c ++ (s1.send c).buf = s.conn c ++ (s.send c).buf ++ placed := by
  induction ops with
  | nil =>
    intro s c hwf hc _ _
    exact ⟨s, rfl, hwf, hc, [], by simp [broadcasts], by simp⟩
  | cons op rest ih =>
    intro s c hwf hc hsh hrm
    have hop : op ≠ .shutdown := fun e => hsh (e ▸ List.mem_cons_self _ _)
    have hopc : op ≠ .remove c := fun e => hrm (e ▸ List.mem_cons_self _ _)
    obtain ⟨s1, hrun1, hwf1, hstep⟩ := BusOp.apply_wf toJSON s op hwf hop
    obtain ⟨hc1, placed1, hsub1, heq1⟩ := hstep c hc hopc
    obtain ⟨s2, hrun2, hwf2, hc2, placed2, hsub2, heq2⟩ := ih s1 c hwf1 hc1
      (fun h => hsh (List.mem_cons_of_mem _ h)) (fun h => hrm (List.mem_cons_of_mem _ h))
    refine ⟨s2, by simp only [runBus, hrun1, hrun2], hwf2, hc2, placed1 ++ placed2, ?_, ?_⟩
    · rw [broadcasts_cons, List.map_append]
      exact hsub1.append hsub2
    · rw [heq2, heq1, List.append_assoc]

/-- C12: on a bus whose subscribers have open queues, for every sequence of broadcasts, rounds
of any client's `writePump`, new connections and removals of other clients, a subscriber that
stays attached is handed (written to its connection, or waiting in its queue) what it had
before followed by a sublist of the broadcast events' JSON in producer order: events are
dropped, never reordered or duplicated.  The run does not panic and the subscriber's queue
holds at most 256 messages at its end, hence after every operation of it. -/
theorem runBus_subsequence (toJSON : JobEvent → String) (s : WebSocketServer)
    (ops : List BusOp) (c : Nat) (hwf : s.wf) (hc : c ∈ s.clients)
    (hsh : BusOp.shutdown ∉ ops) (hrm : BusOp.remove c ∉ ops) :
    ∃ s1, runBus toJSON s ops = .ok s1 ∧ c ∈ s1.clients ∧ (s1.send c).buf.length ≤ 256 ∧
      ∃ placed, placed.Sublist ((broadcasts ops).map toJSON) ∧
        s1.conn c ++ (s1.send c).buf = s.conn c ++ (s.send c).buf ++ placed := by
  obtain ⟨s1, hrun, hwf1, hc1, hplaced⟩ := runBus_placed toJSON ops s c hwf hc hsh hrm
  exact ⟨s1, hrun, hc1, (hwf1.2 c hc1).2.1, hplaced⟩

/-- C12 (witness): subscriber `0` through three broadcasts, a write, a second connection and
its removal. -/
theorem runBus_subsequence_witness :
    ∃ s1, runBus exToJSON (HandleWebSocket NewWebSocketServer true)
        [.broadcast (exEvent "created"), .broadcast (exEvent "started"), .write 0, .attach,
         .broadcast (exEvent "succeeded"), .remove 1] = .ok s1 ∧
      0 ∈ s1.clients ∧ (s1.send 0).buf.length ≤ 256 :=
  (runBus_subsequence exToJSON (HandleWebSocket NewWebSocketServer true)
    [.broadcast (exEvent "created"), .broadcast (exEvent "started"), .write 0, .attach,
     .broadcast (exEvent "succeeded"), .remove 1] 0
    (by unfold WebSocketServer.wf; decide) (by decide) (by decide) (by decide)).imp
    (fun _ h => ⟨h.1, h.2.1, h.2.2.1⟩)

/-! ## Attempt rows -/

/-- C13 (evaluation at the failing input): job `J` is claimed at instant 10 and its handler
succeeds at once.  `processJob` inserts the attempt record before the handler, with status
`processing`, and inserts the same record again after it, with status `completed` and the same
id: the second insert is rejected.  The job has one attempt row, still `processing`, none
`completed`, and the job itself stays `processing`. -/
theorem processJob_second_insert_rejected :
    (pickAndProcessJob exWorkerOk 10 { repo := exOne 3, eventChan := [] }).2.1
      = some ("job processing failed: failed to update job attempt: " ++
          "duplicate key value violates unique constraint on id") ∧
    (pickAndProcessJob exWorkerOk 10 { repo := exOne 3, eventChan := [] }).2.2.repo.statusOf "J"
      = some StatusProcessing ∧
    ((pickAndProcessJob exWorkerOk 10
        { repo := exOne 3, eventChan := [] }).2.2.repo.job_attempts.filter
          (fun a => decide (a.JobID = "J"))).map (fun a => (a.ID, a.AttemptNumber, a.Status))
      = [("J-10", 1, StatusProcessing)] := by
  decide

/-! ## Retry delay: bounds -/

theorem calculateRetryDelay_exponential_eq (rs : RetryStrategy) (n : Int)
    (hty : rs.Type_ = "exponential") (hI : 0 ≤ rs.Interval) (hn : 0 ≤ n)
    (hfit : 1024 * rs.Interval * 1000000000 < 2 ^ 63) :
    calculateRetryDelay rs n = rs.Interval * 2 ^ (min n 10).toNat * 1000000000 := by
  have hp : (0 : Int) < 2 ^ (min n 10).toNat := by positivity
  have hle := pow2_le_1024 n
  unfold calculateRetryDelay
  rw [if_pos hty, pow2Capped_of_nonneg n hn]
  have hin : wrapInt64 (2 ^ (min n 10).toNat * Second) = 2 ^ (min n 10).toNat * Second := by
    apply wrapInt64_of_range <;> (unfold Second; omega)
  rw [hin]
  have heq : 2 ^ (min n 10).toNat * Second * rs.Interval
      = rs.Interval * 2 ^ (min n 10).toNat * 1000000000 := by
    unfold Second; ring
  rw [heq]
  have hub : rs.Interval * 2 ^ (min n 10).toNat ≤ rs.Interval * 1024 :=
    mul_le_mul_of_nonneg_left hle hI
  have hlb : 0 ≤ rs.Interval * 2 ^ (min n 10).toNat := by positivity
  apply wrapInt64_of_range <;> omega

/-- C14 (counterexample): with base interval 10 000 000 s and attempt count 10 the product
`1024 * 10^9 * I` exceeds the `int64` range and wraps: the delay is negative, below `I`
seconds. -/
theorem calculateRetryDelay_exponential_bound_fails :
    pow2Capped 10 * Second * 10000000 ≥ 2 ^ 63 ∧
    calculateRetryDelay { Type_ := "exponential", Interval := 10000000, MaxAttempts := 5 } 10
      = -8206744073709551616 ∧
    ¬ (10000000 * Second ≤
      calculateRetryDelay { Type_ := "exponential", Interval := 10000000, MaxAttempts := 5 } 10)
    := by
  decide

/-- C14 (amended): for the strategy `exponential`, a base interval `I >= 0` with
`1024 * I * 10^9 < 2^63` and attempt counts `0 <= n <= m`, however large: the delay `d n` lies
between `I` and `1024 * I` seconds, `d n <= d m`, `d n` is `1024 * I` seconds when `n >= 10`,
and neither `int64` product that yields `d n` leaves the `int64` range. -/
theorem calculateRetryDelay_exponential_bounds (rs : RetryStrategy) (n m : Int)
    (hty : rs.Type_ = "exponential") (hI : 0 ≤ rs.Interval)
    (hfit : 1024 * rs.Interval * 1000000000 < 2 ^ 63) (hn : 0 ≤ n) (hnm : n ≤ m) :
    rs.Interval * Second ≤ calculateRetryDelay rs n ∧
    calculateRetryDelay rs n ≤ 1024 * rs.Interval * Second ∧
    calculateRetryDelay rs n ≤ calculateRetryDelay rs m ∧
    (10 ≤ n → calculateRetryDelay rs n = 1024 * rs.Interval * Second) ∧
    (-(2 ^ 63) ≤ pow2Capped n * Second ∧ pow2Capped n * Second < 2 ^ 63 ∧
      -(2 ^ 63) ≤ pow2Capped n * Second * rs.Interval ∧
      pow2Capped n * Second * rs.Interval < 2 ^ 63) := by
  have hdn := calculateRetryDelay_exponential_eq rs n hty hI hn hfit
  have hdm := calculateRetryDelay_exponential_eq rs m hty hI (le_trans hn hnm) hfit
  have hp : (1 : Int) ≤ 2 ^ (min n 10).toNat := one_le_pow₀ (by norm_num)
  have hle := pow2_le_1024 n
  have hmono : (2 : Int) ^ (min n 10).toNat ≤ 2 ^ (min m 10).toNat :=
    pow_le_pow_right₀ (by norm_num) (by omega)
  have h1 : rs.Interval * 1 ≤ rs.Interval * 2 ^ (min n 10).toNat :=
    mul_le_mul_of_nonneg_left hp hI
  have h2 : rs.Interval * 2 ^ (min n 10).toNat ≤ rs.Interval * 1024 :=
    mul_le_mul_of_nonneg_left hle hI
  have h3 : rs.Interval * 2 ^ (min n 10).toNat ≤ rs.Interval * 2 ^ (min m 10).toNat :=
    mul_le_mul_of_nonneg_left hmono hI
  rw [hdn, hdm]
  unfold Second
  refine ⟨by omega, by omega, by omega, ?_, ?_⟩
  · intro h10
    have : (min n 10).toNat = 10 := by omega
    rw [this]
    norm_num
    ring
  · rw [pow2Capped_of_nonneg n hn]
    have heq : 2 ^ (min n 10).toNat * 1000000000 * rs.Interval
        = rs.Interval * 2 ^ (min n 10).toNat * 1000000000 := by ring
    rw [heq]
    refine ⟨by omega, by omega, by omega, by omega⟩

/-- C14 (witness): the default interval of 5 s, attempt counts 3 and 12. -/
theorem calculateRetryDelay_exponential_bounds_witness :
    calculateRetryDelay exConfig.RetryStrategy 3 ≤ calculateRetryDelay exConfig.RetryStrategy 12 :=
  (calculateRetryDelay_exponential_bounds exConfig.RetryStrategy 3 12 rfl (by decide)
    (by decide) (by decide) (by decide)).2.2.1

/-- C15 (counterexample): with the strategy `fixed` and base interval 10^10 s the product
`I * 10^9` wraps: the delay is negative, not `I` seconds. -/
theorem calculateRetryDelay_fixed_wraps :
    calculateRetryDelay { Type_ := "fixed", Interval := 10000000000, MaxAttempts := 5 } 1
      = -8446744073709551616 ∧
    calculateRetryDelay { Type_ := "fixed", Interval := 10000000000, MaxAttempts := 5 } 1
      ≠ 10000000000 * Second := by
  decide

/-- C15 (amended): for the strategy `fixed` the delay is the same for every attempt count,
whatever the base interval is, and for a base interval `I >= 0` with `I * 10^9 < 2^63` it is
exactly `I` seconds. -/
theorem calculateRetryDelay_fixed (rs : RetryStrategy) (n m : Int)
    (hty : rs.Type_ = "fixed") :
    calculateRetryDelay rs n = calculateRetryDelay rs m ∧
    (0 ≤ rs.Interval → rs.Interval * 1000000000 < 2 ^ 63 →
      calculateRetryDelay rs n = rs.Interval * Second) := by
  have hne : ¬ rs.Type_ = "exponential" := by rw [hty]; decide
  have h : ∀ k, calculateRetryDelay rs k = wrapInt64 (rs.Interval * Second) := by
    intro k
    unfold calculateRetryDelay
    rw [if_neg hne, if_pos hty]
  refine ⟨by rw [h n, h m], ?_⟩
  intro hI hfit
  rw [h n]
  apply wrapInt64_of_range <;> (unfold Second; omega)

/-- C15 (witness): a fixed interval of 5 s gives 5 s after the seventh attempt; at the interval
10^10 s, where the product wraps, the delay is still the same for the attempt counts 7 and 1. -/
theorem calculateRetryDelay_fixed_witness :
    calculateRetryDelay { Type_ := "fixed", Interval := 5, MaxAttempts := 5 } 7 = 5 * Second ∧
    calculateRetryDelay { Type_ := "fixed", Interval := 10000000000, MaxAttempts := 5 } 7
      = calculateRetryDelay { Type_ := "fixed", Interval := 10000000000, MaxAttempts := 5 } 1 :=
  ⟨(calculateRetryDelay_fixed { Type_ := "fixed", Interval := 5, MaxAttempts := 5 } 7 1 rfl).2
      (by decide) (by decide),
   (calculateRetryDelay_fixed { Type_ := "fixed", Interval := 10000000000, MaxAttempts := 5 }
      7 1 rfl).1⟩

/-! ## Event flow and shutdown -/

/-- C16 (evaluation at the failing input): the `created` event of job `J` is in `eventChan`
and subscriber `0` is attached with an empty queue.  When `Dispatcher.processEvents` receives
the event, it logs that it is broadcasting and does nothing else: the channel is empty
afterwards and the subscriber's queue and connection are still empty.  Had
`WebSocketServer.processEvents` received it, the subscriber would hold the event. -/
theorem Dispatcher_processEvents_consumes_event :
    exFlow.eventChan.map (fun e => (e.Type_, e.JobID)) = [("created", "J")] ∧
    exFlow.ws.clients = [0] ∧
    (Dispatcher.processEvents exFlow).eventChan = [] ∧
    ((Dispatcher.processEvents exFlow).ws.send 0).buf = [] ∧
    (Dispatcher.processEvents exFlow).ws.conn 0 = [] ∧
    (Dispatcher.processEvents exFlow).log =
      ["Dispatcher received event: created - Job J from queue default",
       "Dispatcher broadcasting event to WebSocket clients"] ∧
    (match WebSocketServer.processEvents exToJSON exFlow with
      | .ok f => some (f.ws.send 0).buf
      | .error _ => none) = some ["created:J"] := by
  decide

theorem Worker.Start_running (r : WorkerRun) (now : Int) (st : State)
    (h : r.shutdownCh = false ∧ r.returned = false) : (Worker.Start r now st).1 = r := by
  unfold Worker.Start
  simp [h.1, h.2]

theorem runWorkers_never_return (sched : List (Nat × Int)) :
    ∀ (d : Dispatcher) (st : State),
      (∀ r ∈ d.running, r.shutdownCh = false ∧ r.returned = false) →
      (runWorkers d st sched).1.running = d.running := by
  induction sched with
  | nil => intro d st _; rfl
  | cons c rest ih =>
    intro d st hall
    obtain ⟨i, now⟩ := c
    unfold runWorkers
    cases hget : d.running.get? i with
    | none => exact ih d st hall
    | some r =>
      have hmem : r ∈ d.running := List.get?_mem hget
      have hsame : d.running.set i (Worker.Start r now st).1 = d.running := by
        rw [Worker.Start_running r now st (hall r hmem)]
        apply List.ext_get?
        intro k
        by_cases hk : i = k
        · subst hk
          rw [List.get?_eq_getElem?, List.get?_eq_getElem?, List.getElem?_set_self']
          rw [List.get?_eq_getElem?] at hget
          simp [hget]
        · rw [List.get?_eq_getElem?, List.get?_eq_getElem?, List.getElem?_set_ne hk]
      simp only
      rw [ih _ _ (by simp only [hsame]; exact hall)]
      exact hsame

/-- C17 (evaluation at the failing input): a dispatcher started with two workers; the
signalling step of `Shutdown` closes the dispatcher's own `shutdownCh`, while the channel
`shutdownCh` of each worker stays open and `d.workers` is empty.  So each worker's next round
takes the `default` branch and starts a job (events `started` for `B` and `D` are sent), and
under every schedule of worker rounds no worker returns: `shutdownWg.Wait()` never returns
and `eventChan` is never closed. -/
theorem Shutdown_leaves_workers_running :
    exSignalled.shutdownCh = true ∧
    exSignalled.workers.length = 0 ∧
    exSignalled.running.map (fun r => (r.worker.id, r.shutdownCh, r.returned))
      = [("worker-0", false, false), ("worker-1", false, false)] ∧
    (runWorkers exSignalled { repo := exSeed, eventChan := [] } [(0, 10), (1, 11)]).2.eventChan.map
        (fun e => (e.Type_, e.JobID))
      = [("started", "B"), ("started", "D")] ∧
    (∀ (sched : List (Nat × Int)) (st : State),
      (runWorkers exSignalled st sched).1.waitDone = false ∧
      (runWorkers exSignalled st sched).1.ShutdownFinish.isNone = true) := by
  have hrun : ∀ r ∈ exSignalled.running, r.shutdownCh = false ∧ r.returned = false := by
    intro r hr
    have : exSignalled.running =
        [{ worker := { id := "worker-0",
                       jobHandler := fun _ _ => { err := none, elapsed := 1000000000 },
                       config := { VisibilityTimeout := exDispatcherConfig.VisibilityTimeout,
                                   RetryStrategy := exDispatcherConfig.RetryStrategy } },
           shutdownCh := false, returned := false },
         { worker := { id := "worker-1",
                       jobHandler := fun _ _ => { err := none, elapsed := 1000000000 },
                       config := { VisibilityTimeout := exDispatcherConfig.VisibilityTimeout,
                                   RetryStrategy := exDispatcherConfig.RetryStrategy } },
           shutdownCh := false, returned := false }] := rfl
    rw [this] at hr
    simp only [List.mem_cons, List.mem_singleton, List.not_mem_nil, or_false] at hr
    rcases hr with e | e <;> rw [e] <;> exact ⟨rfl, rfl⟩
  refine ⟨rfl, rfl, by decide, by decide, ?_⟩
  intro sched st
  have hw : (runWorkers exSignalled st sched).1.waitDone = false := by
    unfold Dispatcher.waitDone
    rw [runWorkers_never_return sched exSignalled st hrun]
    rfl
  refine ⟨hw, ?_⟩
  unfold Dispatcher.ShutdownFinish
  rw [hw]
  rfl

/-- C18 (evaluation at the failing input): a client connects and `Shutdown` runs.  `Shutdown`
closes the client's queue and leaves the client in the subscriber set; the client's
`writePump` then finds its channel closed and returns, and its deferred `removeClient` closes
the same queue a second time, which panics.  A `removeClient` or a `broadcastEvent` after
`Shutdown` panic likewise. -/
theorem Shutdown_keeps_closed_subscribers :
    (match runBus exToJSON NewWebSocketServer [.attach, .shutdown] with
      | .ok s => some (s.clients, (s.send 0).closed)
      | .error _ => none) = some ([0], true) ∧
    (match runBus exToJSON NewWebSocketServer [.attach, .shutdown, .write 0] with
      | .ok _ => none
      | .error e => some e) = some "panic: close of closed channel" ∧
    (match runBus exToJSON NewWebSocketServer [.attach, .shutdown, .remove 0] with
      | .ok _ => none
      | .error e => some e) = some "panic: close of closed channel" ∧
    (match runBus exToJSON NewWebSocketServer
        [.attach, .shutdown, .broadcast (exEvent "created")] with
      | .ok _ => none
      | .error e => some e) = some "panic: send on closed channel" := by
  decide

end Gosynq
